import Mathlib

/-!
# websocket-c: the frame codec of `websocket-c/websocket.c`

A shallow embedding of the receive path (`websocket_recv_frame` and its helpers
`recv_header`, `recv_payload_length`, `recv_masking_key`) and of the send path
(`send_frame`, `send_length`, the `websocket_send_*` wrappers), followed by the
theorems that settle the properties stated about them.

Modelling conventions.

* A byte (`uint8_t`) is a `Fin 256`; wider machine integers are naturals, reduced
  modulo `2 ^ w` wherever the C code stores them into a `w`-bit object.
* The inbound direction of the socket is the list of bytes that have not been read
  yet. `recv` hands out the requested number of bytes whenever that many remain and
  everything that is left otherwise (the stream then has ended).
* The outbound direction records the bytes accepted so far, the number of `send`
  calls issued, and a script of the results the transport gives to the coming
  `send` calls, so that short and failed writes can be expressed.
* The platform is a parameter (`Host`): its byte order, which decides what
  `htons`, `ntohs`, `htonll`, `ntohll` and a load or store of a multi-byte object do,
  and its allocator, which decides whether `malloc` of a given size succeeds.
* A pointer to a buffer is an `Option (List Byte)`: `none` is the null pointer and
  `some bs` points at a buffer that holds exactly the bytes `bs`.
* A read outside a buffer is undefined behaviour in C; the model reports it as the
  distinct outcome `Outcome.outOfBounds` instead of inventing a value.
-/

namespace WebSocket

/-! ## Bytes, host byte order, allocator -/

/-- An octet, the C type `uint8_t`. -/
abbrev Byte := Fin 256

/-- Conversion of an integer to `uint8_t`: the value modulo 256. -/
def byte (n : Nat) : Byte := ⟨n % 256, Nat.mod_lt n (by decide)⟩

/-- The platform the library runs on. -/
structure Host where
  /-- Whether multi-byte objects are laid out least significant byte first. -/
  littleEndian : Bool
  /-- Whether `malloc` of the given size returns a non-null pointer. -/
  malloc : Nat → Bool

/-- The `w` low-order bytes of `x`, least significant first. -/
def toLE : Nat → Nat → List Byte
  | 0, _ => []
  | w + 1, x => byte x :: toLE w (x / 256)

/-- The number whose little-endian digits in base 256 are the given bytes. -/
def ofLE : List Byte → Nat
  | [] => 0
  | b :: bs => b.val + 256 * ofLE bs

/-- The bytes in memory of a `w`-byte unsigned object holding `x`, lowest address first. -/
def store (host : Host) (w x : Nat) : List Byte :=
  if host.littleEndian then toLE w x else (toLE w x).reverse

/-- The value of the unsigned object whose bytes in memory are `bs`, lowest address first. -/
def load (host : Host) (bs : List Byte) : Nat :=
  if host.littleEndian then ofLE bs else ofLE bs.reverse

/-- Reversal of the byte order of a `w`-byte unsigned value. -/
def bswap (w x : Nat) : Nat := ofLE (toLE w x).reverse

/-- The libc conversion `htons`: host to network (big-endian) order, 16 bits. -/
def htons (host : Host) (x : Nat) : Nat :=
  if host.littleEndian then bswap 2 x else x % 2 ^ 16

/-- The libc conversion `ntohs`: network to host order, 16 bits. -/
def ntohs (host : Host) (x : Nat) : Nat :=
  if host.littleEndian then bswap 2 x else x % 2 ^ 16

/-- The libc conversion `htonll`: host to network order, 64 bits. -/
def htonll (host : Host) (x : Nat) : Nat :=
  if host.littleEndian then bswap 8 x else x % 2 ^ 64

/-- The libc conversion `ntohll`: network to host order, 64 bits. -/
def ntohll (host : Host) (x : Nat) : Nat :=
  if host.littleEndian then bswap 8 x else x % 2 ^ 64

/-- The cast `(int64_t)x` of a `uint64_t`. -/
def toInt64 (x : Nat) : Int :=
  if x % 2 ^ 64 < 2 ^ 63 then ((x % 2 ^ 64 : Nat) : Int) else ((x % 2 ^ 64 : Nat) : Int) - 2 ^ 64

/-! ## Data model (`websocket.h`) -/

/-- The enum `WebSocketFrameKind`. -/
inductive WebSocketFrameKind
  | Invalid
  | Text
  | Binary
  | Ping
  | Pong
  | Close
  deriving DecidableEq, Repr

/-- The tagged union `WebSocketFrame`: the constructor is the `kind` field and its
arguments are the active member of the union (`text`, `binary`, `ping`, `pong`:
a pointer and a 64-bit length; `close`: the 16-bit reason). `invalid` is the
all-zero frame. -/
inductive WebSocketFrame
  | invalid
  | text (characters : Option (List Byte)) (length : Nat)
  | binary (bytes : Option (List Byte)) (length : Nat)
  | ping (payload : Option (List Byte)) (length : Nat)
  | pong (payload : Option (List Byte)) (length : Nat)
  | close (reason : Nat)
  deriving DecidableEq, Repr

/-- The field `kind` of a frame. -/
def WebSocketFrame.kind : WebSocketFrame → WebSocketFrameKind
  | .invalid => .Invalid
  | .text _ _ => .Text
  | .binary _ _ => .Binary
  | .ping _ _ => .Ping
  | .pong _ _ => .Pong
  | .close _ => .Close

/-- The struct `WebSocketHeader` of `websocket.c`. -/
structure WebSocketHeader where
  opcode : Nat
  is_final : Bool
  deriving DecidableEq, Repr

/-- The enumerator `Opcode_Continuation`. -/
def Opcode_Continuation : Nat := 0x00
/-- The enumerator `Opcode_Text`. -/
def Opcode_Text : Nat := 0x01
/-- The enumerator `Opcode_Binary`. -/
def Opcode_Binary : Nat := 0x02
/-- The enumerator `Opcode_Close`. -/
def Opcode_Close : Nat := 0x08
/-- The enumerator `Opcode_Ping`. -/
def Opcode_Ping : Nat := 0x09
/-- The enumerator `Opcode_Pong`. -/
def Opcode_Pong : Nat := 0x0A

/-- The values the library assigns to `errno`. -/
inductive Errno
  | ENOTSUP
  | EINVAL
  deriving DecidableEq, Repr

/-- What a call does: it returns, or it reads outside a buffer (undefined behaviour). -/
inductive Outcome (α : Type)
  | returns (a : α)
  | outOfBounds
  deriving DecidableEq, Repr

/-! ## Receive path -/

/-- The call `recv(socket, buf, n, 0)` on the inbound stream: the bytes stored into
`buf` (the return value is their number) and the stream that remains. -/
def recv (socket : List Byte) (n : Nat) : List Byte × List Byte :=
  (socket.take n, socket.drop n)

/-- The function `recv_header`: `none` is the return value -1. -/
def recv_header (socket : List Byte) : Option WebSocketHeader × List Byte :=
  let (buf, socket) := recv socket 1
  match buf with
  | [lead] =>
    if lead.val &&& 0x70 ≠ 0 then (none, socket)
    else (some { opcode := lead.val &&& 0x7f, is_final := decide ((lead.val &&& 0x80) > 0) }, socket)
  | _ => (none, socket)

/-- The function `recv_payload_length`: `none` is the return value -1. -/
def recv_payload_length (host : Host) (socket : List Byte) : Option Nat × List Byte :=
  let (buf, socket) := recv socket 1
  match buf with
  | [initial_length] =>
    let masked : Bool := decide (initial_length.val &&& 0x80 ≠ 0)
    if !masked then (none, socket)
    else
      let payload_length := initial_length.val &&& 0x7f
      if payload_length = 126 then
        let (buf, socket) := recv socket 2
        if buf.length ≠ 2 then (none, socket)
        else (some (ntohs host (load host buf)), socket)
      else if payload_length = 127 then
        let (buf, socket) := recv socket 8
        if buf.length ≠ 8 then (none, socket)
        else (some (ntohll host (load host buf)), socket)
      else (some payload_length, socket)
  | _ => (none, socket)

/-- The function `recv_masking_key`: the four key bytes, `none` is the return value -1. -/
def recv_masking_key (socket : List Byte) : Option (List Byte) × List Byte :=
  let (key, socket) := recv socket 4
  if key.length ≠ 4 then (none, socket) else (some key, socket)

/-- The unmasking loop of `websocket_recv_frame` (lines 69 to 71):
`payload[i] = payload[i] ^ masking_key[i % 4]` for every index of the buffer. -/
def apply_mask (payload : List Byte) (masking_key : List Byte) : List Byte :=
  payload.mapIdx (fun i b => b ^^^ masking_key.getD (i % 4) 0)

/-- What a call of `websocket_recv_frame` leaves behind. -/
structure RecvResult where
  /-- The return value, 0 or -1. -/
  ret : Int
  /-- The contents of `*frame` after the call. -/
  frame : WebSocketFrame
  /-- The inbound bytes still unread. -/
  socket : List Byte
  /-- The value the function assigned to `errno`, if it assigned one. -/
  errno : Option Errno
  /-- The size of the payload buffer obtained from `malloc`, if one was obtained. -/
  allocated : Option Nat
  /-- Whether that buffer was passed to `free` before returning. -/
  freed : Bool
  deriving DecidableEq, Repr

/-- The function `websocket_recv_frame`; `frame` is the content of `*frame` on entry. -/
def websocket_recv_frame (host : Host) (socket : List Byte) (frame : WebSocketFrame) :
    Outcome RecvResult :=
  match recv_header socket with
  | (none, socket) => .returns ⟨-1, frame, socket, none, none, false⟩
  | (some header, socket) =>
  match recv_payload_length host socket with
  | (none, socket) => .returns ⟨-1, frame, socket, none, none, false⟩
  | (some payload_length, socket) =>
  match recv_masking_key socket with
  | (none, socket) => .returns ⟨-1, frame, socket, none, none, false⟩
  | (some masking_key, socket) =>
  if header.opcode = Opcode_Continuation then
    .returns ⟨-1, frame, socket, some .ENOTSUP, none, false⟩
  else if !host.malloc payload_length then
    .returns ⟨-1, frame, socket, none, none, false⟩
  else
    let (buf, socket) := recv socket payload_length
    if (buf.length : Int) ≠ toInt64 payload_length then
      .returns ⟨-1, frame, socket, none, some payload_length, true⟩
    else
      let payload := apply_mask buf masking_key
      if header.opcode = Opcode_Text then
        .returns ⟨0, .text (some payload) payload_length, socket, none, some payload_length, false⟩
      else if header.opcode = Opcode_Binary then
        .returns ⟨0, .binary (some payload) payload_length, socket, none, some payload_length, false⟩
      else if !header.is_final then
        .returns ⟨-1, frame, socket, some .ENOTSUP, some payload_length, true⟩
      else if payload_length > 125 then
        .returns ⟨-1, frame, socket, some .ENOTSUP, some payload_length, true⟩
      else if header.opcode = Opcode_Close then
        if payload.length < 2 then .outOfBounds
        else
          let reason := load host (payload.take 2)
          .returns ⟨0, .close (ntohs host reason), socket, none, some payload_length, true⟩
      else if header.opcode = Opcode_Ping then
        .returns ⟨0, .ping (some payload) payload_length, socket, none, some payload_length, false⟩
      else if header.opcode = Opcode_Pong then
        .returns ⟨0, .pong (some payload) payload_length, socket, none, some payload_length, false⟩
      else
        .returns ⟨-1, frame, socket, some .ENOTSUP, some payload_length, false⟩

/-- The function `websocket_recv_frame` as it runs on a machine with flat memory, where
the load `*(uint16_t*)payload` of the Close branch always yields two bytes: the bytes
of the payload buffer and, when the buffer holds fewer than two, the bytes
`beyond 0`, `beyond 1`, ... that lie in memory right behind it. Every other step is
the one of `websocket_recv_frame`; the call always returns. -/
def websocket_recv_frame_flat (host : Host) (beyond : Nat → Byte) (socket : List Byte)
    (frame : WebSocketFrame) : RecvResult :=
  match recv_header socket with
  | (none, socket) => ⟨-1, frame, socket, none, none, false⟩
  | (some header, socket) =>
  match recv_payload_length host socket with
  | (none, socket) => ⟨-1, frame, socket, none, none, false⟩
  | (some payload_length, socket) =>
  match recv_masking_key socket with
  | (none, socket) => ⟨-1, frame, socket, none, none, false⟩
  | (some masking_key, socket) =>
  if header.opcode = Opcode_Continuation then
    ⟨-1, frame, socket, some .ENOTSUP, none, false⟩
  else if !host.malloc payload_length then
    ⟨-1, frame, socket, none, none, false⟩
  else
    let (buf, socket) := recv socket payload_length
    if (buf.length : Int) ≠ toInt64 payload_length then
      ⟨-1, frame, socket, none, some payload_length, true⟩
    else
      let payload := apply_mask buf masking_key
      if header.opcode = Opcode_Text then
        ⟨0, .text (some payload) payload_length, socket, none, some payload_length, false⟩
      else if header.opcode = Opcode_Binary then
        ⟨0, .binary (some payload) payload_length, socket, none, some payload_length, false⟩
      else if !header.is_final then
        ⟨-1, frame, socket, some .ENOTSUP, some payload_length, true⟩
      else if payload_length > 125 then
        ⟨-1, frame, socket, some .ENOTSUP, some payload_length, true⟩
      else if header.opcode = Opcode_Close then
        let reason := load host ((payload ++ [beyond 0, beyond 1]).take 2)
        ⟨0, .close (ntohs host reason), socket, none, some payload_length, true⟩
      else if header.opcode = Opcode_Ping then
        ⟨0, .ping (some payload) payload_length, socket, none, some payload_length, false⟩
      else if header.opcode = Opcode_Pong then
        ⟨0, .pong (some payload) payload_length, socket, none, some payload_length, false⟩
      else
        ⟨-1, frame, socket, some .ENOTSUP, some payload_length, false⟩

/-! ## Send path -/

/-- The outbound direction of the socket. -/
structure Outbound where
  /-- The results the transport gives to the coming `send` calls, in order: a negative
  entry is a failed call, a non-negative entry is the number of bytes the transport
  is willing to take (capped by the size requested). Once the script is used up
  every call takes everything. -/
  results : List Int
  /-- The bytes the transport has accepted so far. -/
  written : List Byte
  /-- The number of `send` calls issued so far. -/
  calls : Nat
  deriving DecidableEq, Repr

/-- The call `send(socket, buf, len, 0)`: its return value and the socket afterwards. -/
def send (socket : Outbound) (buf : List Byte) : Int × Outbound :=
  match socket.results with
  | [] => ((buf.length : Int), ⟨[], socket.written ++ buf, socket.calls + 1⟩)
  | r :: rest =>
    if r < 0 then (-1, ⟨rest, socket.written, socket.calls + 1⟩)
    else ((((buf.take r.toNat).length : Nat) : Int),
          ⟨rest, socket.written ++ buf.take r.toNat, socket.calls + 1⟩)

/-- The function `send_length`. -/
def send_length (host : Host) (socket : Outbound) (length : Nat) : Int × Outbound :=
  let is_masked : Bool := false
  if length ≤ 125 then
    let first_byte := byte ((is_masked.toNat <<< 7) ||| length)
    let (n, socket) := send socket [first_byte]
    if n ≠ 1 then (-1, socket) else (0, socket)
  else if length ≤ 65535 then
    let first_byte := byte ((is_masked.toNat <<< 7) ||| 126)
    let (n, socket) := send socket [first_byte]
    if n ≠ 1 then (-1, socket)
    else
      let mask := ((1 <<< 16) - 1) % 2 ^ 16
      let payload_length := htons host (length &&& mask)
      let (n, socket) := send socket (store host 2 payload_length)
      if n ≠ 2 then (-1, socket) else (0, socket)
  else
    let first_byte := byte ((is_masked.toNat <<< 7) ||| 127)
    let (n, socket) := send socket [first_byte]
    if n ≠ 1 then (-1, socket)
    else
      let payload_length := htonll host length
      let (n, socket) := send socket (store host 8 payload_length)
      if n ≠ 8 then (-1, socket) else (0, socket)

/-- The `length` bytes found at the pointer `payload`, when the buffer it points at
holds that many; `none` when the pointer is null or the buffer is shorter. -/
def bytesAt (payload : Option (List Byte)) (length : Nat) : Option (List Byte) :=
  match payload with
  | none => none
  | some bs => if length ≤ bs.length then some (bs.take length) else none

/-- What a call of `send_frame` leaves behind. -/
structure SendResult where
  /-- The return value, 0 or -1. -/
  ret : Int
  /-- The value the function assigned to `errno`, if it assigned one. -/
  errno : Option Errno
  /-- The outbound direction of the socket after the call. -/
  socket : Outbound
  deriving DecidableEq, Repr

/-- The function `send_frame`. The switch yields the opcode, the bytes the payload
pointer designates and the payload length; for a Close frame the pointer is the
address of the 16-bit `reason` field, so the bytes are its two bytes in memory. -/
def send_frame (host : Host) (socket : Outbound) (frame : WebSocketFrame) :
    Outcome SendResult :=
  if frame.kind = .Invalid then .returns ⟨-1, some .EINVAL, socket⟩
  else
    let is_finished : Bool := true
    let fin_and_reserved := ((is_finished.toNat <<< 3) ||| 0) % 256
    let (opcode, payload, payload_length) : Nat × Option (List Byte) × Nat :=
      match frame with
      | .invalid => (0, none, 0)
      | .text characters length => (Opcode_Text, characters, length)
      | .binary bytes length => (Opcode_Binary, bytes, length)
      | .ping payload length => (Opcode_Ping, payload, length)
      | .pong payload length => (Opcode_Pong, payload, length)
      | .close reason => (Opcode_Close, some (store host 2 reason), 2)
    let lead := byte ((fin_and_reserved <<< 4) ||| opcode)
    let (n, socket) := send socket [lead]
    if n ≠ 1 then .returns ⟨-1, none, socket⟩
    else
      let (r, socket) := send_length host socket payload_length
      if r < 0 then .returns ⟨-1, none, socket⟩
      else if payload_length = 0 then .returns ⟨0, none, socket⟩
      else
        match bytesAt payload payload_length with
        | none => .outOfBounds
        | some buf =>
          let (n, socket) := send socket buf
          if n < 0 then .returns ⟨-1, none, socket⟩ else .returns ⟨0, none, socket⟩

/-- The function `websocket_send_text`. -/
def websocket_send_text (host : Host) (socket : Outbound) (characters : Option (List Byte))
    (characters_length : Nat) : Outcome SendResult :=
  send_frame host socket (.text characters characters_length)

/-- The function `websocket_send_binary`. -/
def websocket_send_binary (host : Host) (socket : Outbound) (bytes : Option (List Byte))
    (bytes_length : Nat) : Outcome SendResult :=
  send_frame host socket (.binary bytes bytes_length)

/-- The function `websocket_send_ping`. -/
def websocket_send_ping (host : Host) (socket : Outbound) (payload : Option (List Byte))
    (payload_byte_length : Nat) : Outcome SendResult :=
  send_frame host socket (.ping payload payload_byte_length)

/-- The function `websocket_send_pong`. -/
def websocket_send_pong (host : Host) (socket : Outbound) (payload : Option (List Byte))
    (payload_byte_length : Nat) : Outcome SendResult :=
  send_frame host socket (.pong payload payload_byte_length)

/-- The function `websocket_send_close`. -/
def websocket_send_close (host : Host) (socket : Outbound) (reason : Nat) : Outcome SendResult :=
  send_frame host socket (.close reason)

/-! ## Frame release -/

/-- The call `free(ptr)` guarded by `if (ptr)`: the buffers handed to `free`. -/
def free_if_set (ptr : Option (List Byte)) : List (List Byte) :=
  match ptr with
  | some buffer => [buffer]
  | none => []

/-- The function `websocket_destroy_frame`: the content of `*frame` after the call
(`memset` to zero leaves the all-zero frame, whose kind is `Invalid`) and the buffers
it handed to `free`, in order. -/
def websocket_destroy_frame (frame : WebSocketFrame) : WebSocketFrame × List (List Byte) :=
  let freed : List (List Byte) :=
    match frame with
    | .binary bytes _ => free_if_set bytes
    | .text characters _ => free_if_set characters
    | .ping payload _ => free_if_set payload
    | .pong payload _ => free_if_set payload
    | .invalid => []
    | .close _ => []
  (.invalid, freed)

end WebSocket

/-! ## Wire forms used to state the properties -/

namespace WebSocket

/-- The length fields with the mask flag set, and the length each one declares: the
length itself in the low seven bits of one byte when it is at most 125; the marker
126 and a 16-bit big-endian length; the marker 127 and a 64-bit big-endian length.
The two extended forms may carry any value, also one a shorter form could hold. -/
inductive MaskedLength : List Byte → Nat → Prop
  | inline (n : Nat) (h : n ≤ 125) : MaskedLength [byte (0x80 + n)] n
  | ext16 (b0 b1 : Byte) : MaskedLength [0xFE, b0, b1] (256 * b0.val + b1.val)
  | ext64 (b0 b1 b2 b3 b4 b5 b6 b7 : Byte) :
      MaskedLength [0xFF, b0, b1, b2, b3, b4, b5, b6, b7]
        (2 ^ 56 * b0.val + 2 ^ 48 * b1.val + 2 ^ 40 * b2.val + 2 ^ 32 * b3.val
          + 2 ^ 24 * b4.val + 2 ^ 16 * b5.val + 2 ^ 8 * b6.val + b7.val)

/-- A little-endian host on which every allocation succeeds. -/
def littleEndianHost : Host := ⟨true, fun _ => true⟩

/-- A big-endian host on which every allocation succeeds. -/
def bigEndianHost : Host := ⟨false, fun _ => true⟩

/-- An outbound socket on which nothing has been written and every write completes. -/
def freshOutbound : Outbound := ⟨[], [], 0⟩

end WebSocket

/-! ## Byte order: the conversions do not depend on the host -/

namespace WebSocket

theorem toLE_length (w x : Nat) : (toLE w x).length = w := by
  induction w generalizing x with
  | zero => rfl
  | succ w ih => simp [toLE, ih]

theorem ofLE_lt (bs : List Byte) : ofLE bs < 256 ^ bs.length := by
  induction bs with
  | nil => simp [ofLE]
  | cons b bs ih =>
    have hb := b.isLt
    simp only [ofLE, List.length_cons, pow_succ]
    omega

theorem ofLE_toLE (w x : Nat) : ofLE (toLE w x) = x % 256 ^ w := by
  induction w generalizing x with
  | zero => simp [toLE, ofLE, Nat.mod_one]
  | succ w ih =>
    simp only [toLE, ofLE, ih, byte, pow_succ]
    rw [Nat.mul_comm (256 ^ w) 256, Nat.mod_mul]

theorem toLE_ofLE (bs : List Byte) : toLE bs.length (ofLE bs) = bs := by
  induction bs with
  | nil => rfl
  | cons b bs ih =>
    have hb := b.isLt
    have h1 : (b.val + 256 * ofLE bs) / 256 = ofLE bs := by omega
    have h2 : byte (b.val + 256 * ofLE bs) = b := by
      apply Fin.ext
      simp only [byte]
      omega
    simp only [List.length_cons, toLE, ofLE, h1, h2, ih]

theorem toLE_mod (w x : Nat) : toLE w (x % 256 ^ w) = toLE w x := by
  have h := toLE_ofLE (toLE w x)
  rw [toLE_length, ofLE_toLE] at h
  exact h

/-- Storing the result of a host-to-network conversion puts the big-endian bytes in
memory, whatever the byte order of the host. -/
theorem store_bswap (host : Host) (w x : Nat) :
    store host w (if host.littleEndian then bswap w x else x % 256 ^ w) = (toLE w x).reverse := by
  cases h : host.littleEndian
  · simp [store, h, toLE_mod]
  · have := toLE_ofLE (toLE w x).reverse
    rw [List.length_reverse, toLE_length] at this
    simp [store, h, bswap, this]

/-- Loading a `w`-byte object and converting it from network order yields the
big-endian value of its bytes, whatever the byte order of the host. -/
theorem bswap_load (host : Host) (bs : List Byte) :
    (if host.littleEndian then bswap bs.length (load host bs) else load host bs % 256 ^ bs.length)
      = ofLE bs.reverse := by
  cases h : host.littleEndian
  · have := ofLE_lt bs.reverse
    rw [List.length_reverse] at this
    simp [load, h, Nat.mod_eq_of_lt this]
  · simp [load, h, bswap, toLE_ofLE]

theorem store_htons (host : Host) (x : Nat) :
    store host 2 (htons host x) = [byte (x / 256), byte x] := by
  have := store_bswap host 2 x
  simpa [htons, toLE] using this

theorem store_htonll (host : Host) (x : Nat) :
    store host 8 (htonll host x) = (toLE 8 x).reverse := by
  have := store_bswap host 8 x
  simpa [htonll] using this

theorem ntohs_load (host : Host) (b0 b1 : Byte) :
    ntohs host (load host [b0, b1]) = 256 * b0.val + b1.val := by
  have h := bswap_load host [b0, b1]
  simp only [List.length_cons, List.length_nil, List.reverse_cons, List.reverse_nil,
    List.nil_append, List.singleton_append, ofLE] at h
  unfold ntohs
  have e : (2 : Nat) ^ 16 = 256 ^ (0 + 1 + 1) := by norm_num
  rw [e, h]
  omega

theorem ntohll_load (host : Host) (bs : List Byte) (h : bs.length = 8) :
    ntohll host (load host bs) = ofLE bs.reverse := by
  have := bswap_load host bs
  rw [h] at this
  simpa [ntohll] using this

end WebSocket

/-! ## Receive path: the steps of `websocket_recv_frame` -/

namespace WebSocket

theorem recv_header_cons (lead : Byte) (rest : List Byte) :
    recv_header (lead :: rest) =
      if lead.val &&& 0x70 ≠ 0 then (none, rest)
      else (some ⟨lead.val &&& 0x7f, decide ((lead.val &&& 0x80) > 0)⟩, rest) := by
  simp [recv_header, recv]

set_option maxRecDepth 100000 in
theorem inline_length_bits :
    ∀ n, n ≤ 125 → (((0x80 + n) % 256) &&& 0x80 ≠ 0) ∧ (((0x80 + n) % 256) &&& 0x7f = n) := by
  decide

/-- A length field with the mask flag set is decoded to the length it declares, and
exactly its bytes are consumed. -/
theorem recv_payload_length_masked (host : Host) (L rest : List Byte) (n : Nat)
    (h : MaskedLength L n) : recv_payload_length host (L ++ rest) = (some n, rest) := by
  cases h with
  | inline n h =>
    obtain ⟨h1, h2⟩ := inline_length_bits n h
    have h3 : n ≠ 126 := by omega
    have h4 : n ≠ 127 := by omega
    simp [recv_payload_length, recv, byte, h1, h2, h3, h4]
  | ext16 b0 b1 =>
    have e1 : ((0xFE : Byte).val &&& 0x80) ≠ 0 := by decide
    have e2 : ((0xFE : Byte).val &&& 0x7f) = 126 := by decide
    simp [recv_payload_length, recv, ntohs_load, e1, e2]
  | ext64 b0 b1 b2 b3 b4 b5 b6 b7 =>
    have e1 : ((0xFF : Byte).val &&& 0x80) ≠ 0 := by decide
    have e2 : ((0xFF : Byte).val &&& 0x7f) = 127 := by decide
    have h := ntohll_load host [b0, b1, b2, b3, b4, b5, b6, b7] rfl
    have hv : ofLE [b0, b1, b2, b3, b4, b5, b6, b7].reverse
        = 2 ^ 56 * b0.val + 2 ^ 48 * b1.val + 2 ^ 40 * b2.val + 2 ^ 32 * b3.val
          + 2 ^ 24 * b4.val + 2 ^ 16 * b5.val + 2 ^ 8 * b6.val + b7.val := by
      simp only [List.reverse_cons, List.reverse_nil, List.nil_append, List.cons_append, ofLE]
      omega
    rw [hv] at h
    simp [recv_payload_length, recv, h, e1, e2]

/-- A second byte with the mask flag clear ends the call after two bytes. -/
theorem recv_frame_unmasked (host : Host) (b0 b1 : Byte) (rest : List Byte)
    (frame : WebSocketFrame) (h0 : b0.val &&& 0x70 = 0) (h1 : b1.val &&& 0x80 = 0) :
    websocket_recv_frame host (b0 :: b1 :: rest) frame
      = .returns ⟨-1, frame, rest, none, none, false⟩ := by
  unfold websocket_recv_frame
  rw [recv_header_cons]
  simp [h0, recv_payload_length, recv, h1]

theorem recv_masking_key_cons (k0 k1 k2 k3 : Byte) (rest : List Byte) :
    recv_masking_key (k0 :: k1 :: k2 :: k3 :: rest) = (some [k0, k1, k2, k3], rest) := by
  simp [recv_masking_key, recv]

end WebSocket

/-! ## The masking transform -/

namespace WebSocket

theorem xor_cancel (a b : Byte) : (a ^^^ b) ^^^ b = a := by
  apply Fin.ext
  have ha := a.isLt
  have hb := b.isLt
  have h1 : a.val ^^^ b.val < 256 := Nat.xor_lt_two_pow (n := 8) ha hb
  show ((a.val ^^^ b.val) % 256 ^^^ b.val) % 256 = a.val
  rw [Nat.mod_eq_of_lt h1, Nat.xor_assoc, Nat.xor_self, Nat.xor_zero, Nat.mod_eq_of_lt ha]

theorem apply_mask_length (p k : List Byte) : (apply_mask p k).length = p.length := by
  simp [apply_mask]

theorem apply_mask_getD (p k : List Byte) (i : Nat) (h : i < p.length) :
    (apply_mask p k).getD i 0 = p.getD i 0 ^^^ k.getD (i % 4) 0 := by
  simp [apply_mask, List.getD_eq_getElem?_getD, List.getElem?_mapIdx, h]

theorem apply_mask_apply_mask (p k : List Byte) : apply_mask (apply_mask p k) k = p := by
  apply List.ext_getElem
  · simp [apply_mask]
  · intro i h1 h2
    simp [apply_mask, xor_cancel]

/-- Claim C3. Masking involution: applying the masking loop of `websocket_recv_frame`
twice with the same four-byte key gives back the original buffer, and the loop keeps
the length of the buffer. -/
theorem masking_involution (buffer : List Byte) (k0 k1 k2 k3 : Byte) :
    apply_mask (apply_mask buffer [k0, k1, k2, k3]) [k0, k1, k2, k3] = buffer
      ∧ (apply_mask buffer [k0, k1, k2, k3]).length = buffer.length :=
  ⟨apply_mask_apply_mask buffer _, apply_mask_length buffer _⟩

end WebSocket

/-! ## Length field: encoding and decoding -/

namespace WebSocket

theorem send_complete (w buf : List Byte) (c : Nat) :
    send ⟨[], w, c⟩ buf = ((buf.length : Int), ⟨[], w ++ buf, c + 1⟩) := rfl

theorem and_mask16 (n : Nat) : n &&& 65535 = n % 65536 := by
  have := Nat.and_pow_two_sub_one_eq_mod n 16
  simpa using this

/-- The bytes `send_length` writes when every write completes. -/
theorem send_length_complete (host : Host) (w : List Byte) (c n : Nat) :
    send_length host ⟨[], w, c⟩ n =
      if n ≤ 125 then (0, ⟨[], w ++ [byte n], c + 1⟩)
      else if n ≤ 65535 then (0, ⟨[], w ++ [126, byte (n / 256), byte (n % 256)], c + 2⟩)
      else (0, ⟨[], w ++ [127, byte (n / 2 ^ 56), byte (n / 2 ^ 48), byte (n / 2 ^ 40),
        byte (n / 2 ^ 32), byte (n / 2 ^ 24), byte (n / 2 ^ 16), byte (n / 2 ^ 8), byte n],
        c + 2⟩) := by
  by_cases h1 : n ≤ 125
  · simp [send_length, send_complete, h1]
  · by_cases h2 : n ≤ 65535
    · have e : byte (n % 65536) = byte (n % 256) := by
        apply Fin.ext
        simp only [byte]
        omega
      have e2 : byte (n % 65536 / 256) = byte (n / 256) := by
        apply Fin.ext
        simp only [byte]
        omega
      simp [send_length, send_complete, h1, h2, store_htons, and_mask16, e, e2]
      rfl
    · simp [send_length, send_complete, h1, h2, store_htonll, toLE]
      simp [Nat.div_div_eq_div_mul]
      rfl

/-- Claim C4. Length-tier minimality on encode: for every 64-bit length `n`, on a socket
whose writes all complete `send_length` returns 0 and writes exactly one byte equal
to `n` when `n ≤ 125`; exactly the three bytes 126, `n / 256`, `n % 256` when
`126 ≤ n ≤ 65535`; and exactly nine bytes, 127 followed by the eight bytes of `n` in
big-endian order, when `n ≥ 65536`. The byte values are exact: they add up to `n`. -/
theorem send_length_minimal_tier (host : Host) (w : List Byte) (c n : Nat) (hn : n < 2 ^ 64) :
    send_length host ⟨[], w, c⟩ n =
        (if n ≤ 125 then (0, ⟨[], w ++ [byte n], c + 1⟩)
         else if n ≤ 65535 then (0, ⟨[], w ++ [126, byte (n / 256), byte (n % 256)], c + 2⟩)
         else (0, ⟨[], w ++ [127, byte (n / 2 ^ 56), byte (n / 2 ^ 48), byte (n / 2 ^ 40),
           byte (n / 2 ^ 32), byte (n / 2 ^ 24), byte (n / 2 ^ 16), byte (n / 2 ^ 8), byte n],
           c + 2⟩))
      ∧ (n ≤ 125 → (byte n).val = n)
      ∧ (n ≤ 65535 → (byte (n / 256)).val = n / 256 ∧ (byte (n % 256)).val = n % 256)
      ∧ 2 ^ 56 * (byte (n / 2 ^ 56)).val + 2 ^ 48 * (byte (n / 2 ^ 48)).val
          + 2 ^ 40 * (byte (n / 2 ^ 40)).val + 2 ^ 32 * (byte (n / 2 ^ 32)).val
          + 2 ^ 24 * (byte (n / 2 ^ 24)).val + 2 ^ 16 * (byte (n / 2 ^ 16)).val
          + 2 ^ 8 * (byte (n / 2 ^ 8)).val + (byte n).val = n := by
  refine ⟨send_length_complete host w c n, ?_, ?_, ?_⟩
  · intro h
    simp only [byte]
    omega
  · intro h
    simp only [byte]
    omega
  · simp only [byte]
    norm_num at hn ⊢
    omega

/-- The instances of C4 at the tier boundaries 125, 126, 65535 and 65536. -/
theorem send_length_minimal_tier_witness :
    (65536 < 2 ^ 64
      ∧ (send_length littleEndianHost freshOutbound 65536).2.written
          = [127, 0, 0, 0, 0, 0, 1, 0, 0])
    ∧ (send_length littleEndianHost freshOutbound 125).2.written = [125]
    ∧ (send_length littleEndianHost freshOutbound 126).2.written = [126, 0, 126]
    ∧ (send_length bigEndianHost freshOutbound 65535).2.written = [126, 255, 255] :=
  ⟨⟨by decide, by
      rw [show freshOutbound = ⟨[], [], 0⟩ from rfl,
        (send_length_minimal_tier littleEndianHost [] 0 65536 (by decide)).1]
      decide⟩,
    by decide, by decide, by decide⟩

/-- Claim C5. Length decoding accepts every tier and is big-endian: with the mask bit set
in the first byte `b`, `recv_payload_length` returns the low seven bits of `b` when
they are at most 125; after the marker 126 (byte 0xFE) it returns `256 * b0 + b1` for
the next two bytes; after the marker 127 (byte 0xFF) it returns the big-endian value
of the next eight bytes. This holds for every value of those bytes, so a length that
a shorter form could hold is accepted too: 0xFE 0x00 0x05 declares 5. In each case
exactly the bytes of the length field are consumed. -/
theorem recv_payload_length_tiers (host : Host) (rest : List Byte) (b : Byte)
    (hmask : b.val &&& 0x80 ≠ 0) (hlow : b.val &&& 0x7f ≤ 125)
    (b0 b1 b2 b3 b4 b5 b6 b7 : Byte) :
    recv_payload_length host (b :: rest) = (some (b.val &&& 0x7f), rest)
      ∧ recv_payload_length host (0xFE :: b0 :: b1 :: rest) = (some (256 * b0.val + b1.val), rest)
      ∧ recv_payload_length host (0xFF :: b0 :: b1 :: b2 :: b3 :: b4 :: b5 :: b6 :: b7 :: rest)
          = (some (2 ^ 56 * b0.val + 2 ^ 48 * b1.val + 2 ^ 40 * b2.val + 2 ^ 32 * b3.val
              + 2 ^ 24 * b4.val + 2 ^ 16 * b5.val + 2 ^ 8 * b6.val + b7.val), rest)
      ∧ recv_payload_length host (0xFE :: 0x00 :: 0x05 :: rest) = (some 5, rest) := by
  refine ⟨?_, ?_, ?_, ?_⟩
  · have h3 : b.val &&& 0x7f ≠ 126 := by omega
    have h4 : b.val &&& 0x7f ≠ 127 := by omega
    simp [recv_payload_length, recv, hmask, h3, h4]
  · exact recv_payload_length_masked host _ rest _ (.ext16 b0 b1)
  · exact recv_payload_length_masked host _ rest _ (.ext64 b0 b1 b2 b3 b4 b5 b6 b7)
  · exact recv_payload_length_masked host _ rest _ (.ext16 0x00 0x05)

/-- An instance of C5: the first byte 0x85 declares 5, and the non-minimal forms
0xFE 0x00 0x05 and 0xFF followed by 0 0 0 0 0 0 0 5 declare 5 as well. -/
theorem recv_payload_length_tiers_witness :
    ((0x85 : Byte).val &&& 0x80 ≠ 0) ∧ ((0x85 : Byte).val &&& 0x7f ≤ 125)
      ∧ recv_payload_length bigEndianHost [0x85, 7, 9] = (some 5, [7, 9])
      ∧ recv_payload_length bigEndianHost [0xFE, 0, 5, 7, 9] = (some 5, [7, 9])
      ∧ recv_payload_length bigEndianHost [0xFF, 0, 0, 0, 0, 0, 0, 0, 5, 7, 9] = (some 5, [7, 9]) :=
  have h := recv_payload_length_tiers bigEndianHost [7, 9] 0x85 (by decide) (by decide)
    0 5 0 0 0 0 0 0
  ⟨by decide, by decide, h.1, by decide, by decide⟩

end WebSocket

/-! ## The receive path on a masked frame -/

namespace WebSocket

/-- What `websocket_recv_frame` does once the lead byte (reserved bits clear), a
length field with the mask flag set and the four key bytes have been read. -/
theorem recv_frame_masked (host : Host) (lead : Byte) (L : List Byte) (n : Nat)
    (k0 k1 k2 k3 : Byte) (tail : List Byte) (frame : WebSocketFrame)
    (hres : lead.val &&& 0x70 = 0) (hL : MaskedLength L n) :
    websocket_recv_frame host (lead :: (L ++ (k0 :: k1 :: k2 :: k3 :: tail))) frame =
      if lead.val &&& 0x7f = Opcode_Continuation then
        .returns ⟨-1, frame, tail, some .ENOTSUP, none, false⟩
      else if !host.malloc n then
        .returns ⟨-1, frame, tail, none, none, false⟩
      else if ((tail.take n).length : Int) ≠ toInt64 n then
        .returns ⟨-1, frame, tail.drop n, none, some n, true⟩
      else if lead.val &&& 0x7f = Opcode_Text then
        .returns ⟨0, .text (some (apply_mask (tail.take n) [k0, k1, k2, k3])) n, tail.drop n,
          none, some n, false⟩
      else if lead.val &&& 0x7f = Opcode_Binary then
        .returns ⟨0, .binary (some (apply_mask (tail.take n) [k0, k1, k2, k3])) n, tail.drop n,
          none, some n, false⟩
      else if !decide ((lead.val &&& 0x80) > 0) then
        .returns ⟨-1, frame, tail.drop n, some .ENOTSUP, some n, true⟩
      else if n > 125 then
        .returns ⟨-1, frame, tail.drop n, some .ENOTSUP, some n, true⟩
      else if lead.val &&& 0x7f = Opcode_Close then
        if (apply_mask (tail.take n) [k0, k1, k2, k3]).length < 2 then .outOfBounds
        else
          .returns ⟨0, .close (ntohs host (load host
            ((apply_mask (tail.take n) [k0, k1, k2, k3]).take 2))), tail.drop n, none, some n, true⟩
      else if lead.val &&& 0x7f = Opcode_Ping then
        .returns ⟨0, .ping (some (apply_mask (tail.take n) [k0, k1, k2, k3])) n, tail.drop n,
          none, some n, false⟩
      else if lead.val &&& 0x7f = Opcode_Pong then
        .returns ⟨0, .pong (some (apply_mask (tail.take n) [k0, k1, k2, k3])) n, tail.drop n,
          none, some n, false⟩
      else
        .returns ⟨-1, frame, tail.drop n, some .ENOTSUP, some n, false⟩ := by
  unfold websocket_recv_frame
  rw [recv_header_cons]
  simp only [hres, ne_eq, not_true_eq_false, if_false, recv_payload_length_masked host L _ n hL,
    recv_masking_key_cons, recv]

/-- The payload read succeeds when the stream holds the declared number of bytes and
that number fits the signed 64-bit result of `recv`. -/
theorem payload_read_ok (tail : List Byte) (n : Nat) (hn : n ≤ tail.length) (h63 : n < 2 ^ 63) :
    ((tail.take n).length : Int) = toInt64 n := by
  have h1 : n % 2 ^ 64 = n := Nat.mod_eq_of_lt (by omega)
  have h2 : (tail.take n).length = n := by simp [List.length_take, Nat.min_eq_left hn]
  unfold toInt64
  rw [h1, h2, if_pos h63]

/-- The dispatch of `websocket_recv_frame` on a complete masked frame that is not a
continuation frame, when the allocation succeeds. -/
theorem recv_frame_dispatch (host : Host) (lead : Byte) (L : List Byte) (n : Nat)
    (k0 k1 k2 k3 : Byte) (tail : List Byte) (frame : WebSocketFrame)
    (hres : lead.val &&& 0x70 = 0) (hL : MaskedLength L n)
    (hop : lead.val &&& 0x7f ≠ Opcode_Continuation) (hmalloc : host.malloc n = true)
    (hn : n ≤ tail.length) (h63 : n < 2 ^ 63) :
    websocket_recv_frame host (lead :: (L ++ [k0, k1, k2, k3] ++ tail)) frame =
      if lead.val &&& 0x7f = Opcode_Text then
        .returns ⟨0, .text (some (apply_mask (tail.take n) [k0, k1, k2, k3])) n, tail.drop n,
          none, some n, false⟩
      else if lead.val &&& 0x7f = Opcode_Binary then
        .returns ⟨0, .binary (some (apply_mask (tail.take n) [k0, k1, k2, k3])) n, tail.drop n,
          none, some n, false⟩
      else if !decide ((lead.val &&& 0x80) > 0) then
        .returns ⟨-1, frame, tail.drop n, some .ENOTSUP, some n, true⟩
      else if n > 125 then
        .returns ⟨-1, frame, tail.drop n, some .ENOTSUP, some n, true⟩
      else if lead.val &&& 0x7f = Opcode_Close then
        if (apply_mask (tail.take n) [k0, k1, k2, k3]).length < 2 then .outOfBounds
        else
          .returns ⟨0, .close (ntohs host (load host
            ((apply_mask (tail.take n) [k0, k1, k2, k3]).take 2))), tail.drop n, none, some n, true⟩
      else if lead.val &&& 0x7f = Opcode_Ping then
        .returns ⟨0, .ping (some (apply_mask (tail.take n) [k0, k1, k2, k3])) n, tail.drop n,
          none, some n, false⟩
      else if lead.val &&& 0x7f = Opcode_Pong then
        .returns ⟨0, .pong (some (apply_mask (tail.take n) [k0, k1, k2, k3])) n, tail.drop n,
          none, some n, false⟩
      else
        .returns ⟨-1, frame, tail.drop n, some .ENOTSUP, some n, false⟩ := by
  have e : lead :: (L ++ [k0, k1, k2, k3] ++ tail) = lead :: (L ++ (k0 :: k1 :: k2 :: k3 :: tail)) := by
    simp
  have hr := payload_read_ok tail n hn h63
  have hm : ¬ ((!host.malloc n) = true) := by simp [hmalloc]
  rw [e, recv_frame_masked host lead L n k0 k1 k2 k3 tail frame hres hL, if_neg hop, if_neg hm,
    if_neg (not_not.mpr hr)]

end WebSocket

/-! ## Rejections in the header and the length field -/

namespace WebSocket

/-- Claim C6. Reserved-bit rejection: when the first byte `b` of the stream has any of
bits 4 to 6 set, whatever follows, `websocket_recv_frame` returns -1 having read that
byte only; the caller's frame is left as it was and no buffer is allocated. -/
theorem reserved_bits_rejected (host : Host) (b : Byte) (rest : List Byte)
    (frame : WebSocketFrame) (h : b.val &&& 0x70 ≠ 0) :
    websocket_recv_frame host (b :: rest) frame = .returns ⟨-1, frame, rest, none, none, false⟩ := by
  unfold websocket_recv_frame
  rw [recv_header_cons]
  simp [h]

/-- An instance of C6: the lead byte 0xC1 (Text with the first reserved bit set). -/
theorem reserved_bits_rejected_witness :
    ((0xC1 : Byte).val &&& 0x70 ≠ 0)
      ∧ websocket_recv_frame littleEndianHost [0xC1, 0x80, 1, 2, 3, 4] (.close 7)
          = .returns ⟨-1, .close 7, [0x80, 1, 2, 3, 4], none, none, false⟩ :=
  ⟨by decide, reserved_bits_rejected littleEndianHost 0xC1 [0x80, 1, 2, 3, 4] (.close 7) (by decide)⟩

/-- Claim C7. Unmasked-frame rejection: when the first byte has the reserved bits clear
and the second byte has the mask flag (bit 7) clear, `websocket_recv_frame` returns -1
and the unread stream is everything after those two bytes: no extended length, no
masking key and no payload byte is read, and no buffer is allocated. -/
theorem unmasked_rejected (host : Host) (b0 b1 : Byte) (rest : List Byte)
    (frame : WebSocketFrame) (h0 : b0.val &&& 0x70 = 0) (h1 : b1.val &&& 0x80 = 0) :
    websocket_recv_frame host (b0 :: b1 :: rest) frame
      = .returns ⟨-1, frame, rest, none, none, false⟩ :=
  recv_frame_unmasked host b0 b1 rest frame h0 h1

/-- An instance of C7: an unmasked Text frame that announces a 16-bit length. -/
theorem unmasked_rejected_witness :
    ((0x81 : Byte).val &&& 0x70 = 0) ∧ ((0x7E : Byte).val &&& 0x80 = 0)
      ∧ websocket_recv_frame littleEndianHost [0x81, 0x7E, 0, 1, 65] .invalid
          = .returns ⟨-1, .invalid, [0, 1, 65], none, none, false⟩ :=
  ⟨by decide, by decide,
    unmasked_rejected littleEndianHost 0x81 0x7E [0, 1, 65] .invalid (by decide) (by decide)⟩

/-- Claim C10. Continuation rejection: when the lead byte is 0x00 or 0x80 (opcode 0x00) and
is followed by a length field with the mask flag set and four key bytes,
`websocket_recv_frame` returns -1 with `errno` set to `ENOTSUP`; the unread stream is
everything after the key, so no payload byte is read, and no payload buffer has been
allocated, whatever the allocator would have answered. -/
theorem continuation_rejected (host : Host) (lead : Byte) (L : List Byte) (n : Nat)
    (k0 k1 k2 k3 : Byte) (tail : List Byte) (frame : WebSocketFrame)
    (hlead : lead = 0x00 ∨ lead = 0x80) (hL : MaskedLength L n) :
    websocket_recv_frame host (lead :: (L ++ [k0, k1, k2, k3] ++ tail)) frame
      = .returns ⟨-1, frame, tail, some .ENOTSUP, none, false⟩ := by
  have hres : lead.val &&& 0x70 = 0 := by rcases hlead with h | h <;> subst h <;> decide
  have hop : lead.val &&& 0x7f = Opcode_Continuation := by
    rcases hlead with h | h <;> subst h <;> decide
  have e : lead :: (L ++ [k0, k1, k2, k3] ++ tail) = lead :: (L ++ (k0 :: k1 :: k2 :: k3 :: tail)) := by
    simp
  rw [e, recv_frame_masked host lead L n k0 k1 k2 k3 tail frame hres hL, if_pos hop]

/-- An instance of C10: a final continuation frame declaring five payload bytes. -/
theorem continuation_rejected_witness :
    ((0x80 : Byte) = 0x00 ∨ (0x80 : Byte) = 0x80) ∧ MaskedLength [byte (0x80 + 5)] 5
      ∧ websocket_recv_frame littleEndianHost
          (0x80 :: ([byte (0x80 + 5)] ++ [1, 2, 3, 4] ++ [72, 101, 108, 108, 111])) .invalid
          = .returns ⟨-1, .invalid, [72, 101, 108, 108, 111], some .ENOTSUP, none, false⟩ :=
  ⟨by decide, .inline 5 (by decide),
    continuation_rejected littleEndianHost 0x80 [byte (0x80 + 5)] 5 1 2 3 4 [72, 101, 108, 108, 111]
      .invalid (by decide) (.inline 5 (by decide))⟩

end WebSocket

/-! ## Data frames and control frames -/

namespace WebSocket

/-- Claim C2. Receive-path correctness for data frames: when the stream starts with the lead
byte 0x81 (Text) or 0x82 (Binary), a length field with the mask flag set that declares
`n`, a four-byte key and then at least `n` further bytes, `websocket_recv_frame`
returns 0 with a frame of the matching kind whose length is `n` and whose buffer holds
`n` bytes, byte `i` being the `i`-th payload byte XOR `key[i % 4]`; the unread stream
is what follows the `n` payload bytes. The allocation of `n` bytes is taken to
succeed and `n` to be a count that `recv` can report (below `2 ^ 63`). -/
theorem recv_data_frame (host : Host) (lead : Byte) (L : List Byte) (n : Nat)
    (k0 k1 k2 k3 : Byte) (tail : List Byte) (frame : WebSocketFrame)
    (hlead : lead = 0x81 ∨ lead = 0x82) (hL : MaskedLength L n) (hn : n ≤ tail.length)
    (hmalloc : host.malloc n = true) (h63 : n < 2 ^ 63) :
    websocket_recv_frame host (lead :: (L ++ [k0, k1, k2, k3] ++ tail)) frame
        = .returns ⟨0,
            (if lead = 0x81 then .text (some (apply_mask (tail.take n) [k0, k1, k2, k3])) n
             else .binary (some (apply_mask (tail.take n) [k0, k1, k2, k3])) n),
            tail.drop n, none, some n, false⟩
      ∧ (apply_mask (tail.take n) [k0, k1, k2, k3]).length = n
      ∧ ∀ i, i < n →
          (apply_mask (tail.take n) [k0, k1, k2, k3]).getD i 0
            = tail.getD i 0 ^^^ [k0, k1, k2, k3].getD (i % 4) 0 := by
  have hres : lead.val &&& 0x70 = 0 := by rcases hlead with h | h <;> subst h <;> decide
  have hop : lead.val &&& 0x7f ≠ Opcode_Continuation := by
    rcases hlead with h | h <;> subst h <;> decide
  have hlen : (tail.take n).length = n := by simp [List.length_take, Nat.min_eq_left hn]
  refine ⟨?_, ?_, ?_⟩
  · rw [recv_frame_dispatch host lead L n k0 k1 k2 k3 tail frame hres hL hop hmalloc hn h63]
    rcases hlead with h | h <;> subst h
    · rw [if_pos (by decide), if_pos rfl]
    · rw [if_neg (by decide), if_pos (by decide), if_neg (by decide)]
  · rw [apply_mask_length, hlen]
  · intro i hi
    rw [apply_mask_getD _ _ i (by omega)]
    congr 1
    simp [List.getD_eq_getElem?_getD, List.getElem?_take, hi]

/-- An instance of C2: the masked Text frame "Hello" followed by one more byte. -/
theorem recv_data_frame_witness :
    ((0x81 : Byte) = 0x81 ∨ (0x81 : Byte) = 0x82) ∧ MaskedLength [byte (0x80 + 5)] 5
      ∧ 5 ≤ [0x49, 0x67, 0x6f, 0x68, 0x6e, (9 : Byte)].length
      ∧ littleEndianHost.malloc 5 = true ∧ 5 < 2 ^ 63
      ∧ websocket_recv_frame littleEndianHost
          (0x81 :: ([byte (0x80 + 5)] ++ [1, 2, 3, 4] ++ [0x49, 0x67, 0x6f, 0x68, 0x6e, 9])) .invalid
          = .returns ⟨0, .text (some [0x48, 0x65, 0x6c, 0x6c, 0x6f]) 5, [9], none, some 5, false⟩ :=
  ⟨by decide, .inline 5 (by decide), by decide, rfl, by decide,
    (recv_data_frame littleEndianHost 0x81 [byte (0x80 + 5)] 5 1 2 3 4
      [0x49, 0x67, 0x6f, 0x68, 0x6e, 9] .invalid (by decide) (.inline 5 (by decide))
      (by decide) rfl (by decide)).1⟩

/-- The Close reason read from a buffer of at least two bytes is the big-endian value
of its first two bytes, whatever the byte order of the host. -/
theorem close_reason (host : Host) (q : List Byte) (h : 2 ≤ q.length) :
    ntohs host (load host (q.take 2)) = 256 * (q.getD 0 0).val + (q.getD 1 0).val := by
  match q, h with
  | a :: b :: t, _ => simp [ntohs_load]

/-- Claim C8. Control-frame size bound: for each of Close (lead byte 0x88), Ping (0x89) and
Pong (0x8A), a masked final frame that declares 126 payload bytes, all present in the
stream, is rejected with -1 (with `ENOTSUP` and the buffer freed when the allocation
succeeded, before any payload byte is read when it failed), and the caller's frame is
left as it was; the same frame declaring 125 payload bytes is accepted with return 0
and a frame of that kind: Ping and Pong carry the 125 unmasked bytes, Close carries
the reason held by the first two of them and its buffer is freed. -/
theorem control_frame_size_bound (host : Host) (lead : Byte) (L126 L125 : List Byte)
    (k0 k1 k2 k3 : Byte) (p126 p125 rest : List Byte) (frame : WebSocketFrame)
    (hlead : lead = 0x88 ∨ lead = 0x89 ∨ lead = 0x8A)
    (h126 : MaskedLength L126 126) (h125 : MaskedLength L125 125)
    (hp126 : p126.length = 126) (hp125 : p125.length = 125) (hmalloc : host.malloc 125 = true) :
    websocket_recv_frame host (lead :: (L126 ++ [k0, k1, k2, k3] ++ (p126 ++ rest))) frame
        = .returns (if host.malloc 126 = true
            then ⟨-1, frame, rest, some .ENOTSUP, some 126, true⟩
            else ⟨-1, frame, p126 ++ rest, none, none, false⟩)
      ∧ websocket_recv_frame host (lead :: (L125 ++ [k0, k1, k2, k3] ++ (p125 ++ rest))) frame
        = .returns ⟨0,
            (if lead = 0x88 then
               .close (256 * ((apply_mask p125 [k0, k1, k2, k3]).getD 0 0).val
                 + ((apply_mask p125 [k0, k1, k2, k3]).getD 1 0).val)
             else if lead = 0x89 then .ping (some (apply_mask p125 [k0, k1, k2, k3])) 125
             else .pong (some (apply_mask p125 [k0, k1, k2, k3])) 125),
            rest, none, some 125, decide (lead = 0x88)⟩ := by
  have hres : lead.val &&& 0x70 = 0 := by
    rcases hlead with h | h | h <;> subst h <;> decide
  have hop : lead.val &&& 0x7f ≠ Opcode_Continuation := by
    rcases hlead with h | h | h <;> subst h <;> decide
  have hnt : lead.val &&& 0x7f ≠ Opcode_Text := by
    rcases hlead with h | h | h <;> subst h <;> decide
  have hnb : lead.val &&& 0x7f ≠ Opcode_Binary := by
    rcases hlead with h | h | h <;> subst h <;> decide
  have hfin : ¬ ((!decide ((lead.val &&& 0x80) > 0)) = true) := by
    rcases hlead with h | h | h <;> subst h <;> decide
  have t126 : (p126 ++ rest).take 126 = p126 := by
    rw [← hp126]; exact List.take_left' rfl
  have d126 : (p126 ++ rest).drop 126 = rest := by
    rw [← hp126]; exact List.drop_left' rfl
  have t125 : (p125 ++ rest).take 125 = p125 := by
    rw [← hp125]; exact List.take_left' rfl
  have d125 : (p125 ++ rest).drop 125 = rest := by
    rw [← hp125]; exact List.drop_left' rfl
  constructor
  · by_cases hm : host.malloc 126 = true
    · rw [recv_frame_dispatch host lead L126 126 k0 k1 k2 k3 (p126 ++ rest) frame hres h126 hop hm
        (by simp [hp126]) (by norm_num), if_neg hnt, if_neg hnb, if_neg hfin,
        if_pos (by decide), d126, if_pos hm]
    · have e : lead :: (L126 ++ [k0, k1, k2, k3] ++ (p126 ++ rest))
          = lead :: (L126 ++ (k0 :: k1 :: k2 :: k3 :: (p126 ++ rest))) := by simp
      have hm2 : (!host.malloc 126) = true := by simpa using hm
      rw [e, recv_frame_masked host lead L126 126 k0 k1 k2 k3 (p126 ++ rest) frame hres h126,
        if_neg hop, if_pos hm2, if_neg hm]
  · have hq : ¬ ((apply_mask p125 [k0, k1, k2, k3]).length < 2) := by
      rw [apply_mask_length, hp125]; decide
    rw [recv_frame_dispatch host lead L125 125 k0 k1 k2 k3 (p125 ++ rest) frame hres h125 hop
      hmalloc (by simp [hp125]) (by norm_num), if_neg hnt, if_neg hnb, if_neg hfin,
      if_neg (by decide), t125, d125]
    rcases hlead with h | h | h <;> subst h
    · rw [if_pos (by decide), if_neg hq, close_reason host _ (by omega), if_pos rfl]
      rfl
    · rw [if_neg (by decide), if_pos (by decide), if_neg (by decide), if_pos rfl]
      rfl
    · rw [if_neg (by decide), if_neg (by decide), if_pos (by decide), if_neg (by decide),
        if_neg (by decide)]
      rfl

/-- An instance of C8: a masked final Ping with 126 bytes is rejected, with 125 bytes
it is accepted. -/
theorem control_frame_size_bound_witness :
    ((0x89 : Byte) = 0x88 ∨ (0x89 : Byte) = 0x89 ∨ (0x89 : Byte) = 0x8A)
      ∧ MaskedLength [0xFE, 0, 126] 126 ∧ MaskedLength [byte (0x80 + 125)] 125
      ∧ (List.replicate 126 (0x41 : Byte)).length = 126
      ∧ (List.replicate 125 (0x41 : Byte)).length = 125
      ∧ littleEndianHost.malloc 125 = true
      ∧ websocket_recv_frame littleEndianHost
          (0x89 :: ([0xFE, 0, 126] ++ [1, 2, 3, 4] ++ (List.replicate 126 0x41 ++ [7]))) .invalid
          = .returns ⟨-1, .invalid, [7], some .ENOTSUP, some 126, true⟩
      ∧ websocket_recv_frame littleEndianHost
          (0x89 :: ([byte (0x80 + 125)] ++ [1, 2, 3, 4] ++ (List.replicate 125 0x41 ++ [7]))) .invalid
          = .returns ⟨0, .ping (some (apply_mask (List.replicate 125 0x41) [1, 2, 3, 4])) 125, [7],
              none, some 125, false⟩ :=
  have h := control_frame_size_bound littleEndianHost 0x89 [0xFE, 0, 126] [byte (0x80 + 125)]
    1 2 3 4 (List.replicate 126 0x41) (List.replicate 125 0x41) [7] .invalid
    (by decide) (.ext16 0 126) (.inline 125 (by decide)) (List.length_replicate _ _)
    (List.length_replicate _ _) rfl
  ⟨by decide, .ext16 0 126, .inline 125 (by decide), List.length_replicate _ _,
    List.length_replicate _ _, rfl, h.1, h.2⟩

/-- Claim C9. Control frames must be final: when the lead byte is 0x08 (Close), 0x09 (Ping) or
0x0A (Pong), that is the FIN bit is clear, `websocket_recv_frame` returns -1 and leaves
the caller's frame as it was, whatever follows in the stream; and when what follows is
a complete masked frame (length field declaring `n`, key, `n` payload bytes, allocation
succeeding), it is rejected with `ENOTSUP` after the payload was read and freed. -/
theorem nonfinal_control_rejected (host : Host) (lead : Byte) (rest : List Byte)
    (frame : WebSocketFrame) (hlead : lead = 0x08 ∨ lead = 0x09 ∨ lead = 0x0A) :
    (∃ r, websocket_recv_frame host (lead :: rest) frame = .returns r
        ∧ r.ret = -1 ∧ r.frame = frame)
      ∧ ∀ (L : List Byte) (n : Nat) (k0 k1 k2 k3 : Byte) (tail : List Byte),
          rest = L ++ [k0, k1, k2, k3] ++ tail → MaskedLength L n → n ≤ tail.length →
          n < 2 ^ 63 → host.malloc n = true →
          websocket_recv_frame host (lead :: rest) frame
            = .returns ⟨-1, frame, tail.drop n, some .ENOTSUP, some n, true⟩ := by
  have hres : lead.val &&& 0x70 = 0 := by
    rcases hlead with h | h | h <;> subst h <;> decide
  have hop : lead.val &&& 0x7f ≠ Opcode_Continuation := by
    rcases hlead with h | h | h <;> subst h <;> decide
  have hnt : lead.val &&& 0x7f ≠ Opcode_Text := by
    rcases hlead with h | h | h <;> subst h <;> decide
  have hnb : lead.val &&& 0x7f ≠ Opcode_Binary := by
    rcases hlead with h | h | h <;> subst h <;> decide
  have hfin : (!decide ((lead.val &&& 0x80) > 0)) = true := by
    rcases hlead with h | h | h <;> subst h <;> decide
  constructor
  · unfold websocket_recv_frame
    rw [recv_header_cons, if_neg (not_not.mpr hres)]
    dsimp only
    rcases recv_payload_length host rest with ⟨_ | payload_length, s2⟩
    · exact ⟨_, rfl, rfl, rfl⟩
    · dsimp only
      rcases recv_masking_key s2 with ⟨_ | key, s3⟩
      · exact ⟨_, rfl, rfl, rfl⟩
      · dsimp only
        rw [if_neg hop]
        split
        · exact ⟨_, rfl, rfl, rfl⟩
        · split
          · exact ⟨_, rfl, rfl, rfl⟩
          · exact ⟨_, rfl, rfl, rfl⟩
  · intro L n k0 k1 k2 k3 tail hrest hL hn h63 hmalloc
    subst hrest
    rw [recv_frame_dispatch host lead L n k0 k1 k2 k3 tail frame hres hL hop hmalloc hn h63,
      if_neg hnt, if_neg hnb, if_pos hfin]

/-- An instance of C9: a non-final Ping with a two-byte payload. -/
theorem nonfinal_control_rejected_witness :
    ((0x09 : Byte) = 0x08 ∨ (0x09 : Byte) = 0x09 ∨ (0x09 : Byte) = 0x0A)
      ∧ MaskedLength [byte (0x80 + 2)] 2 ∧ 2 ≤ [5, 6, (7 : Byte)].length ∧ 2 < 2 ^ 63
      ∧ littleEndianHost.malloc 2 = true
      ∧ websocket_recv_frame littleEndianHost
          (0x09 :: ([byte (0x80 + 2)] ++ [1, 2, 3, 4] ++ [5, 6, 7])) (.close 1000)
          = .returns ⟨-1, .close 1000, [7], some .ENOTSUP, some 2, true⟩ :=
  ⟨by decide, .inline 2 (by decide), by decide, by decide, rfl,
    (nonfinal_control_rejected littleEndianHost 0x09 ([byte (0x80 + 2)] ++ [1, 2, 3, 4] ++ [5, 6, 7])
      (.close 1000) (by decide)).2 [byte (0x80 + 2)] 2 1 2 3 4 [5, 6, 7] rfl
      (.inline 2 (by decide)) (by decide) (by decide) rfl⟩

end WebSocket

/-! ## The send path against the receive path -/

namespace WebSocket

theorem MaskedLength.of_eq {L : List Byte} {m n : Nat} (h : MaskedLength L m) (e : m = n) :
    MaskedLength L n := e ▸ h

set_option maxRecDepth 100000 in
theorem inline_mask_flag :
    ∀ n, n ≤ 125 → ((byte n).val &&& 0x80 = 0) ∧ (byte ((byte n).val ||| 0x80) = byte (0x80 + n)) := by
  decide

/-- The length field `send_length` writes has the mask flag clear, and setting the
flag in its first byte gives a masked length field that declares the same length. -/
theorem send_length_field (host : Host) (w : List Byte) (c n : Nat) (hn : n < 2 ^ 64) :
    ∃ l0 ext k, send_length host ⟨[], w, c⟩ n = (0, ⟨[], w ++ l0 :: ext, c + k⟩)
      ∧ l0.val &&& 0x80 = 0 ∧ MaskedLength (byte (l0.val ||| 0x80) :: ext) n := by
  rw [send_length_complete]
  by_cases h1 : n ≤ 125
  · obtain ⟨a, b⟩ := inline_mask_flag n h1
    refine ⟨byte n, [], 1, by rw [if_pos h1], a, ?_⟩
    rw [b]
    exact .inline n h1
  · by_cases h2 : n ≤ 65535
    · refine ⟨126, [byte (n / 256), byte (n % 256)], 2, by rw [if_neg h1, if_pos h2], by decide, ?_⟩
      refine (MaskedLength.ext16 (byte (n / 256)) (byte (n % 256))).of_eq ?_
      simp only [byte]
      omega
    · refine ⟨127, [byte (n / 2 ^ 56), byte (n / 2 ^ 48), byte (n / 2 ^ 40), byte (n / 2 ^ 32),
        byte (n / 2 ^ 24), byte (n / 2 ^ 16), byte (n / 2 ^ 8), byte n], 2,
        by rw [if_neg h1, if_neg h2], by decide, ?_⟩
      refine (MaskedLength.ext64 (byte (n / 2 ^ 56)) (byte (n / 2 ^ 48)) (byte (n / 2 ^ 40))
        (byte (n / 2 ^ 32)) (byte (n / 2 ^ 24)) (byte (n / 2 ^ 16)) (byte (n / 2 ^ 8))
        (byte n)).of_eq ?_
      simp only [byte]
      norm_num at hn ⊢
      omega

/-- The bytes `send_frame` writes for a Text, Binary, Ping or Pong frame whose buffer
holds exactly the payload `p`, on a socket whose writes all complete: the lead byte,
the unmasked length field of `p.length`, then `p`. -/
theorem send_frame_data (host : Host) (w : List Byte) (c : Nat) (f : WebSocketFrame)
    (p : List Byte) (lead : Byte)
    (hf : (f = .text (some p) p.length ∧ lead = 0x81) ∨ (f = .binary (some p) p.length ∧ lead = 0x82)
      ∨ (f = .ping (some p) p.length ∧ lead = 0x89) ∨ (f = .pong (some p) p.length ∧ lead = 0x8A))
    (hn : p.length < 2 ^ 64) :
    ∃ l0 ext calls,
      send_frame host ⟨[], w, c⟩ f = .returns ⟨0, none, ⟨[], w ++ lead :: l0 :: (ext ++ p), calls⟩⟩
        ∧ l0.val &&& 0x80 = 0 ∧ MaskedLength (byte (l0.val ||| 0x80) :: ext) p.length := by
  obtain ⟨l0, ext, k, hsl, h0, hM⟩ := send_length_field host (w ++ [lead]) (c + 1) p.length hn
  have e1 : byte (128 ||| Opcode_Text) = 0x81 := by decide
  have e2 : byte (128 ||| Opcode_Binary) = 0x82 := by decide
  have e3 : byte (128 ||| Opcode_Ping) = 0x89 := by decide
  have e4 : byte (128 ||| Opcode_Pong) = 0x8A := by decide
  by_cases hz : p.length = 0
  · refine ⟨l0, ext, c + 1 + k, ?_, h0, hM⟩
    have hp : p = [] := List.length_eq_zero.mp hz
    subst hp
    simp only [List.length_nil] at hsl
    rcases hf with ⟨rfl, rfl⟩ | ⟨rfl, rfl⟩ | ⟨rfl, rfl⟩ | ⟨rfl, rfl⟩ <;>
      simp [send_frame, WebSocketFrame.kind, send_complete, e1, e2, e3, e4, hsl]
  · refine ⟨l0, ext, c + 1 + k + 1, ?_, h0, hM⟩
    have hb : bytesAt (some p) p.length = some p := by simp [bytesAt]
    have hs : send ⟨[], w ++ [lead] ++ l0 :: ext, c + 1 + k⟩ p
        = ((p.length : Int), ⟨[], w ++ [lead] ++ l0 :: ext ++ p, c + 1 + k + 1⟩) := rfl
    rcases hf with ⟨rfl, rfl⟩ | ⟨rfl, rfl⟩ | ⟨rfl, rfl⟩ | ⟨rfl, rfl⟩ <;>
      simp [send_frame, WebSocketFrame.kind, send_complete, e1, e2, e3, e4, hsl, hz, hb, hs]

set_option maxRecDepth 100000

/-- Claim C1, refuted as stated. On a little-endian host with a working allocator,
`send_frame` writes 0x81 0x05 "Hello" for the Text frame "Hello" (mask flag clear), and
`websocket_recv_frame` rejects exactly these bytes with -1 after the two header bytes;
and a Ping with 126 payload bytes, which `send_frame` writes without complaint, is
rejected by `websocket_recv_frame` even in masked form. -/
theorem send_recv_round_trip_fails :
    send_frame littleEndianHost freshOutbound (.text (some [0x48, 0x65, 0x6c, 0x6c, 0x6f]) 5)
        = .returns ⟨0, none, ⟨[], [0x81, 0x05, 0x48, 0x65, 0x6c, 0x6c, 0x6f], 3⟩⟩
      ∧ websocket_recv_frame littleEndianHost [0x81, 0x05, 0x48, 0x65, 0x6c, 0x6c, 0x6f] .invalid
        = .returns ⟨-1, .invalid, [0x48, 0x65, 0x6c, 0x6c, 0x6f], none, none, false⟩
      ∧ send_frame littleEndianHost freshOutbound (.ping (some (List.replicate 126 0)) 126)
        = .returns ⟨0, none, ⟨[], 0x89 :: 126 :: 0 :: 126 :: List.replicate 126 0, 4⟩⟩
      ∧ websocket_recv_frame littleEndianHost
          (0x89 :: 0xFE :: 0 :: 126 :: 0 :: 0 :: 0 :: 0 :: List.replicate 126 0) .invalid
        = .returns ⟨-1, .invalid, [], some .ENOTSUP, some 126, true⟩ := by
  refine ⟨by decide, by decide, by decide, by decide⟩

/-- Claim C1, amended. For every Text or Binary frame `f` with payload `p`, and every Ping or
Pong frame with a payload of at most 125 bytes, `send_frame` succeeds and writes a lead
byte, a length field (first byte `l0`, extension `ext`) and the payload; these bytes
as written are rejected by `websocket_recv_frame` (-1 after the two header bytes, the
mask flag being clear); and the same frame in masked form (the mask flag set in `l0`,
any four-byte key inserted after the length field, the payload XORed with the key) is
received with return 0 as a frame equal to `f`, everything after it left unread. The
allocation of the payload is taken to succeed and its length to be below `2 ^ 63`. -/
theorem masked_send_recv_round_trip (host : Host) (f : WebSocketFrame) (p : List Byte)
    (k0 k1 k2 k3 : Byte) (rest : List Byte) (g : WebSocketFrame)
    (hf : f = .text (some p) p.length ∨ f = .binary (some p) p.length
      ∨ (p.length ≤ 125 ∧ (f = .ping (some p) p.length ∨ f = .pong (some p) p.length)))
    (hmalloc : host.malloc p.length = true) (h63 : p.length < 2 ^ 63) :
    ∃ lead l0 ext calls,
      send_frame host freshOutbound f = .returns ⟨0, none, ⟨[], lead :: l0 :: (ext ++ p), calls⟩⟩
        ∧ websocket_recv_frame host (lead :: l0 :: (ext ++ p ++ rest)) g
            = .returns ⟨-1, g, ext ++ p ++ rest, none, none, false⟩
        ∧ websocket_recv_frame host
            (lead :: byte (l0.val ||| 0x80)
              :: (ext ++ [k0, k1, k2, k3] ++ apply_mask p [k0, k1, k2, k3] ++ rest)) g
            = .returns ⟨0, f, rest, none, some p.length, false⟩ := by
  have h64 : p.length < 2 ^ 64 := by omega
  have key : ∀ lead : Byte,
      ((f = .text (some p) p.length ∧ lead = 0x81) ∨ (f = .binary (some p) p.length ∧ lead = 0x82)
        ∨ (f = .ping (some p) p.length ∧ lead = 0x89) ∨ (f = .pong (some p) p.length ∧ lead = 0x8A)) →
      (lead.val &&& 0x70 = 0) → (lead.val &&& 0x7f ≠ Opcode_Continuation) →
      (∀ L, MaskedLength L p.length →
        websocket_recv_frame host
          (lead :: (L ++ [k0, k1, k2, k3] ++ (apply_mask p [k0, k1, k2, k3] ++ rest))) g
          = .returns ⟨0, f, rest, none, some p.length, false⟩) →
      ∃ lead l0 ext calls,
        send_frame host freshOutbound f = .returns ⟨0, none, ⟨[], lead :: l0 :: (ext ++ p), calls⟩⟩
          ∧ websocket_recv_frame host (lead :: l0 :: (ext ++ p ++ rest)) g
              = .returns ⟨-1, g, ext ++ p ++ rest, none, none, false⟩
          ∧ websocket_recv_frame host
              (lead :: byte (l0.val ||| 0x80)
                :: (ext ++ [k0, k1, k2, k3] ++ apply_mask p [k0, k1, k2, k3] ++ rest)) g
              = .returns ⟨0, f, rest, none, some p.length, false⟩ := by
    intro lead hlead hres hop hrecv
    obtain ⟨l0, ext, calls, hsend, h0, hM⟩ := send_frame_data host [] 0 f p lead hlead h64
    refine ⟨lead, l0, ext, calls, ?_, recv_frame_unmasked host lead l0 _ g hres h0, ?_⟩
    · simpa [freshOutbound] using hsend
    · have := hrecv _ hM
      simpa using this
  have hlen : (apply_mask p [k0, k1, k2, k3]).length = p.length := apply_mask_length _ _
  have ht : (apply_mask p [k0, k1, k2, k3] ++ rest).take p.length = apply_mask p [k0, k1, k2, k3] :=
    List.take_left' hlen
  have hd : (apply_mask p [k0, k1, k2, k3] ++ rest).drop p.length = rest := List.drop_left' hlen
  have hle : p.length ≤ (apply_mask p [k0, k1, k2, k3] ++ rest).length := by
    rw [List.length_append, hlen]; omega
  have hinv := apply_mask_apply_mask p [k0, k1, k2, k3]
  rcases hf with h | h | ⟨h125, h | h⟩
  · refine key 0x81 (Or.inl ⟨h, rfl⟩) (by decide) (by decide) ?_
    intro L hL
    rw [recv_frame_dispatch host 0x81 L p.length k0 k1 k2 k3 _ g (by decide) hL (by decide)
      hmalloc hle h63, if_pos (by decide), ht, hd, hinv, h]
  · refine key 0x82 (Or.inr (Or.inl ⟨h, rfl⟩)) (by decide) (by decide) ?_
    intro L hL
    rw [recv_frame_dispatch host 0x82 L p.length k0 k1 k2 k3 _ g (by decide) hL (by decide)
      hmalloc hle h63, if_neg (by decide), if_pos (by decide), ht, hd, hinv, h]
  · refine key 0x89 (Or.inr (Or.inr (Or.inl ⟨h, rfl⟩))) (by decide) (by decide) ?_
    intro L hL
    rw [recv_frame_dispatch host 0x89 L p.length k0 k1 k2 k3 _ g (by decide) hL (by decide)
      hmalloc hle h63, if_neg (by decide), if_neg (by decide), if_neg (by decide),
      if_neg (by omega), if_neg (by decide), if_pos (by decide), ht, hd, hinv, h]
  · refine key 0x8A (Or.inr (Or.inr (Or.inr ⟨h, rfl⟩))) (by decide) (by decide) ?_
    intro L hL
    rw [recv_frame_dispatch host 0x8A L p.length k0 k1 k2 k3 _ g (by decide) hL (by decide)
      hmalloc hle h63, if_neg (by decide), if_neg (by decide), if_neg (by decide),
      if_neg (by omega), if_neg (by decide), if_neg (by decide), if_pos (by decide), ht, hd,
      hinv, h]

/-- An instance of the amended C1: the Text frame "Hello" and the key 1 2 3 4. -/
theorem masked_send_recv_round_trip_witness :
    ((WebSocketFrame.text (some [0x48, 0x65, 0x6c, 0x6c, 0x6f]) 5
          = .text (some [0x48, 0x65, 0x6c, 0x6c, 0x6f]) [0x48, 0x65, 0x6c, 0x6c, (0x6f : Byte)].length)
        ∨ (WebSocketFrame.text (some [0x48, 0x65, 0x6c, 0x6c, 0x6f]) 5
          = .binary (some [0x48, 0x65, 0x6c, 0x6c, 0x6f]) [0x48, 0x65, 0x6c, 0x6c, (0x6f : Byte)].length)
        ∨ ([0x48, 0x65, 0x6c, 0x6c, (0x6f : Byte)].length ≤ 125
          ∧ ((WebSocketFrame.text (some [0x48, 0x65, 0x6c, 0x6c, 0x6f]) 5
              = .ping (some [0x48, 0x65, 0x6c, 0x6c, 0x6f]) [0x48, 0x65, 0x6c, 0x6c, (0x6f : Byte)].length)
            ∨ (WebSocketFrame.text (some [0x48, 0x65, 0x6c, 0x6c, 0x6f]) 5
              = .pong (some [0x48, 0x65, 0x6c, 0x6c, 0x6f]) [0x48, 0x65, 0x6c, 0x6c, (0x6f : Byte)].length))))
      ∧ littleEndianHost.malloc 5 = true ∧ 5 < 2 ^ 63
      ∧ ∃ lead l0 ext calls,
          send_frame littleEndianHost freshOutbound (.text (some [0x48, 0x65, 0x6c, 0x6c, 0x6f]) 5)
              = .returns ⟨0, none, ⟨[], lead :: l0 :: (ext ++ [0x48, 0x65, 0x6c, 0x6c, 0x6f]), calls⟩⟩
            ∧ websocket_recv_frame littleEndianHost
                (lead :: l0 :: (ext ++ [0x48, 0x65, 0x6c, 0x6c, 0x6f] ++ [9])) .invalid
                = .returns ⟨-1, .invalid, ext ++ [0x48, 0x65, 0x6c, 0x6c, 0x6f] ++ [9], none, none, false⟩
            ∧ websocket_recv_frame littleEndianHost
                (lead :: byte (l0.val ||| 0x80)
                  :: (ext ++ [1, 2, 3, 4] ++ apply_mask [0x48, 0x65, 0x6c, 0x6c, 0x6f] [1, 2, 3, 4] ++ [9]))
                .invalid
                = .returns ⟨0, .text (some [0x48, 0x65, 0x6c, 0x6c, 0x6f]) 5, [9], none, some 5, false⟩ :=
  ⟨Or.inl rfl, rfl, by decide,
    masked_send_recv_round_trip littleEndianHost (.text (some [0x48, 0x65, 0x6c, 0x6c, 0x6f]) 5)
      [0x48, 0x65, 0x6c, 0x6c, 0x6f] 1 2 3 4 [9] .invalid (Or.inl rfl) rfl (by decide)⟩

end WebSocket

/-! ## Receive path: what a call can do -/

namespace WebSocket

theorem recv_header_nil : recv_header [] = (none, []) := rfl

theorem recv_header_some (s rest : List Byte) (hd : WebSocketHeader)
    (h : recv_header s = (some hd, rest)) :
    ∃ lead, s = lead :: rest ∧ lead.val &&& 0x70 = 0
      ∧ hd = ⟨lead.val &&& 0x7f, decide ((lead.val &&& 0x80) > 0)⟩ := by
  cases s with
  | nil => simp [recv_header, recv] at h
  | cons lead t =>
    rw [recv_header_cons] at h
    by_cases hr : lead.val &&& 0x70 = 0
    · simp [hr] at h
      exact ⟨lead, by rw [h.2], hr, h.1.symm⟩
    · simp [hr] at h

set_option maxRecDepth 100000 in
theorem masked_byte_forms :
    ∀ b : Byte, b.val &&& 0x80 ≠ 0 →
      b = byte (0x80 + (b.val &&& 0x7f)) ∧ (b.val &&& 0x7f = 126 → b = 0xFE)
        ∧ (b.val &&& 0x7f = 127 → b = 0xFF) ∧ b.val &&& 0x7f ≤ 127 := by
  decide

theorem recv_payload_length_some (host : Host) (s rest : List Byte) (n : Nat)
    (h : recv_payload_length host s = (some n, rest)) :
    ∃ L, s = L ++ rest ∧ MaskedLength L n := by
  cases s with
  | nil => simp [recv_payload_length, recv] at h
  | cons b t =>
    by_cases hm : b.val &&& 0x80 = 0
    · simp [recv_payload_length, recv, hm] at h
    · obtain ⟨e1, e126, e127, hle⟩ := masked_byte_forms b hm
      by_cases h126 : b.val &&& 0x7f = 126
      · have hb := e126 h126
        subst hb
        match t with
        | [] => simp [recv_payload_length, recv, hm, h126] at h
        | [_] => simp [recv_payload_length, recv, hm, h126] at h
        | b0 :: b1 :: t2 =>
          rw [show (0xFE : Byte) :: b0 :: b1 :: t2 = [0xFE, b0, b1] ++ t2 from rfl,
            recv_payload_length_masked host _ t2 _ (.ext16 b0 b1)] at h
          simp only [Prod.mk.injEq, Option.some.injEq] at h
          exact ⟨[0xFE, b0, b1], by rw [← h.2]; rfl, h.1 ▸ .ext16 b0 b1⟩
      · by_cases h127 : b.val &&& 0x7f = 127
        · have hb := e127 h127
          subst hb
          match t with
          | b0 :: b1 :: b2 :: b3 :: b4 :: b5 :: b6 :: b7 :: t2 =>
            rw [show (0xFF : Byte) :: b0 :: b1 :: b2 :: b3 :: b4 :: b5 :: b6 :: b7 :: t2
                = [0xFF, b0, b1, b2, b3, b4, b5, b6, b7] ++ t2 from rfl,
              recv_payload_length_masked host _ t2 _ (.ext64 b0 b1 b2 b3 b4 b5 b6 b7)] at h
            simp only [Prod.mk.injEq, Option.some.injEq] at h
            exact ⟨[0xFF, b0, b1, b2, b3, b4, b5, b6, b7], by rw [← h.2]; rfl,
              h.1 ▸ .ext64 b0 b1 b2 b3 b4 b5 b6 b7⟩
          | [] | [_] | [_, _] | [_, _, _] | [_, _, _, _] | [_, _, _, _, _]
          | [_, _, _, _, _, _] | [_, _, _, _, _, _, _] =>
            simp [recv_payload_length, recv, hm, h126, h127] at h
        · have hn : b.val &&& 0x7f ≤ 125 := by omega
          have := recv_payload_length_masked host [byte (0x80 + (b.val &&& 0x7f))] t _
            (.inline _ hn)
          rw [← e1] at this
          rw [show b :: t = [b] ++ t from rfl, this] at h
          simp only [Prod.mk.injEq, Option.some.injEq] at h
          refine ⟨[b], by rw [← h.2]; rfl, ?_⟩
          rw [← h.1]
          have := MaskedLength.inline _ hn
          rw [← e1] at this
          exact this

theorem recv_masking_key_some (s rest key : List Byte)
    (h : recv_masking_key s = (some key, rest)) :
    ∃ k0 k1 k2 k3, s = k0 :: k1 :: k2 :: k3 :: rest ∧ key = [k0, k1, k2, k3] := by
  match s with
  | k0 :: k1 :: k2 :: k3 :: t =>
    rw [recv_masking_key_cons] at h
    simp only [Prod.mk.injEq, Option.some.injEq] at h
    exact ⟨k0, k1, k2, k3, by rw [h.2], h.1.symm⟩
  | [] | [_] | [_, _] | [_, _, _] => simp [recv_masking_key, recv] at h

theorem MaskedLength.lt {L : List Byte} {n : Nat} (h : MaskedLength L n) : n < 2 ^ 64 := by
  cases h with
  | inline n h => omega
  | ext16 b0 b1 => have := b0.isLt; have := b1.isLt; omega
  | ext64 b0 b1 b2 b3 b4 b5 b6 b7 =>
    have := b0.isLt; have := b1.isLt; have := b2.isLt; have := b3.isLt
    have := b4.isLt; have := b5.isLt; have := b6.isLt; have := b7.isLt
    norm_num
    omega

theorem payload_read_inv (tail : List Byte) (n : Nat) (hn : n < 2 ^ 64)
    (h : ((tail.take n).length : Int) = toInt64 n) : n ≤ tail.length ∧ n < 2 ^ 63 := by
  have h1 : n % 2 ^ 64 = n := Nat.mod_eq_of_lt hn
  unfold toInt64 at h
  rw [h1] at h
  have hl : (tail.take n).length ≤ n := by simp [List.length_take]
  have hl2 : (tail.take n).length = min n tail.length := by simp [List.length_take]
  split at h
  · rename_i h63
    have : (tail.take n).length = n := by exact_mod_cast h
    exact ⟨by omega, h63⟩
  · exfalso
    have : (((tail.take n).length : Nat) : Int) ≥ 0 := Int.ofNat_nonneg _
    norm_num at hn
    omega

/-- Every call of `websocket_recv_frame` either is rejected with -1 and leaves the
caller's frame alone, or has read a complete masked frame that is not a continuation
frame and whose payload buffer was allocated and filled. -/
theorem recv_frame_cases (host : Host) (s : List Byte) (frame : WebSocketFrame) :
    (∃ r, websocket_recv_frame host s frame = .returns r ∧ r.ret = -1 ∧ r.frame = frame)
      ∨ ∃ lead L n k0 k1 k2 k3 tail, s = lead :: (L ++ [k0, k1, k2, k3] ++ tail)
          ∧ lead.val &&& 0x70 = 0 ∧ lead.val &&& 0x7f ≠ Opcode_Continuation
          ∧ MaskedLength L n ∧ host.malloc n = true ∧ n ≤ tail.length ∧ n < 2 ^ 63 := by
  rcases h1 : recv_header s with ⟨_ | hd, s1⟩
  · left
    unfold websocket_recv_frame
    rw [h1]
    exact ⟨_, rfl, rfl, rfl⟩
  obtain ⟨lead, rfl, hres, -⟩ := recv_header_some s s1 hd h1
  rcases h2 : recv_payload_length host s1 with ⟨_ | n, s2⟩
  · left
    unfold websocket_recv_frame
    rw [h1]
    dsimp only
    rw [h2]
    exact ⟨_, rfl, rfl, rfl⟩
  obtain ⟨L, rfl, hL⟩ := recv_payload_length_some host s1 s2 n h2
  rcases h3 : recv_masking_key s2 with ⟨_ | key, s3⟩
  · left
    unfold websocket_recv_frame
    rw [h1]
    dsimp only
    rw [h2]
    dsimp only
    rw [h3]
    exact ⟨_, rfl, rfl, rfl⟩
  obtain ⟨k0, k1, k2, k3, rfl, -⟩ := recv_masking_key_some s2 s3 key h3
  have hm := recv_frame_masked host lead L n k0 k1 k2 k3 s3 frame hres hL
  by_cases hop : lead.val &&& 0x7f = Opcode_Continuation
  · left
    rw [hm, if_pos hop]
    exact ⟨_, rfl, rfl, rfl⟩
  by_cases hmal : host.malloc n = true
  · by_cases hr : ((s3.take n).length : Int) = toInt64 n
    · right
      obtain ⟨hn, h63⟩ := payload_read_inv s3 n hL.lt hr
      exact ⟨lead, L, n, k0, k1, k2, k3, s3, by simp, hres, hop, hL, hmal, hn, h63⟩
    · left
      rw [hm, if_neg hop, if_neg (by simp [hmal]), if_pos hr]
      exact ⟨_, rfl, rfl, rfl⟩
  · left
    rw [hm, if_neg hop, if_pos (by simpa using hmal)]
    exact ⟨_, rfl, rfl, rfl⟩

/-- The three ways a call on a complete masked frame can end: a frame of the kind the
opcode names, a rejection that leaves the caller's frame alone, or, for a final Close
frame that declares fewer than two bytes, a read outside the payload buffer. -/
theorem recv_frame_complete (host : Host) (lead : Byte) (L : List Byte) (n : Nat)
    (k0 k1 k2 k3 : Byte) (tail : List Byte) (frame : WebSocketFrame)
    (hres : lead.val &&& 0x70 = 0) (hL : MaskedLength L n)
    (hop : lead.val &&& 0x7f ≠ Opcode_Continuation) (hmalloc : host.malloc n = true)
    (hn : n ≤ tail.length) (h63 : n < 2 ^ 63) :
    (∃ r, websocket_recv_frame host (lead :: (L ++ [k0, k1, k2, k3] ++ tail)) frame = .returns r
        ∧ r.ret = 0 ∧ r.socket = tail.drop n
        ∧ ((lead.val &&& 0x7f = Opcode_Text
              ∧ r.frame = .text (some (apply_mask (tail.take n) [k0, k1, k2, k3])) n)
          ∨ (lead.val &&& 0x7f = Opcode_Binary
              ∧ r.frame = .binary (some (apply_mask (tail.take n) [k0, k1, k2, k3])) n)
          ∨ (lead.val &&& 0x7f = Opcode_Close ∧ 2 ≤ n ∧ n ≤ 125
              ∧ r.frame = .close (256 * ((apply_mask (tail.take n) [k0, k1, k2, k3]).getD 0 0).val
                  + ((apply_mask (tail.take n) [k0, k1, k2, k3]).getD 1 0).val))
          ∨ (lead.val &&& 0x7f = Opcode_Ping ∧ n ≤ 125
              ∧ r.frame = .ping (some (apply_mask (tail.take n) [k0, k1, k2, k3])) n)
          ∨ (lead.val &&& 0x7f = Opcode_Pong ∧ n ≤ 125
              ∧ r.frame = .pong (some (apply_mask (tail.take n) [k0, k1, k2, k3])) n)))
      ∨ (∃ r, websocket_recv_frame host (lead :: (L ++ [k0, k1, k2, k3] ++ tail)) frame = .returns r
          ∧ r.ret = -1 ∧ r.frame = frame)
      ∨ (websocket_recv_frame host (lead :: (L ++ [k0, k1, k2, k3] ++ tail)) frame = .outOfBounds
          ∧ lead.val &&& 0x7f = Opcode_Close ∧ (lead.val &&& 0x80) > 0 ∧ n < 2) := by
  rw [recv_frame_dispatch host lead L n k0 k1 k2 k3 tail frame hres hL hop hmalloc hn h63]
  have hlen : (apply_mask (tail.take n) [k0, k1, k2, k3]).length = n := by
    rw [apply_mask_length]; simp [List.length_take, Nat.min_eq_left hn]
  by_cases ht : lead.val &&& 0x7f = Opcode_Text
  · rw [if_pos ht]
    exact Or.inl ⟨_, rfl, rfl, rfl, Or.inl ⟨ht, rfl⟩⟩
  rw [if_neg ht]
  by_cases hb : lead.val &&& 0x7f = Opcode_Binary
  · rw [if_pos hb]
    exact Or.inl ⟨_, rfl, rfl, rfl, Or.inr (Or.inl ⟨hb, rfl⟩)⟩
  rw [if_neg hb]
  by_cases hf : (!decide ((lead.val &&& 0x80) > 0)) = true
  · rw [if_pos hf]
    exact Or.inr (Or.inl ⟨_, rfl, rfl, rfl⟩)
  rw [if_neg hf]
  have hfin : (lead.val &&& 0x80) > 0 := by
    have : ¬ (lead.val &&& 0x80 = 0) := by simpa using hf
    omega
  by_cases h125 : n > 125
  · rw [if_pos h125]
    exact Or.inr (Or.inl ⟨_, rfl, rfl, rfl⟩)
  rw [if_neg h125]
  by_cases hc : lead.val &&& 0x7f = Opcode_Close
  · rw [if_pos hc]
    by_cases h2 : (apply_mask (tail.take n) [k0, k1, k2, k3]).length < 2
    · rw [if_pos h2]
      exact Or.inr (Or.inr ⟨rfl, hc, hfin, by omega⟩)
    · rw [if_neg h2, close_reason host _ (by omega)]
      exact Or.inl ⟨_, rfl, rfl, rfl, Or.inr (Or.inr (Or.inl ⟨hc, by omega, by omega, rfl⟩))⟩
  rw [if_neg hc]
  by_cases hpi : lead.val &&& 0x7f = Opcode_Ping
  · rw [if_pos hpi]
    exact Or.inl ⟨_, rfl, rfl, rfl, Or.inr (Or.inr (Or.inr (Or.inl ⟨hpi, by omega, rfl⟩)))⟩
  rw [if_neg hpi]
  by_cases hpo : lead.val &&& 0x7f = Opcode_Pong
  · rw [if_pos hpo]
    exact Or.inl ⟨_, rfl, rfl, rfl, Or.inr (Or.inr (Or.inr (Or.inr ⟨hpo, by omega, rfl⟩)))⟩
  rw [if_neg hpo]
  exact Or.inr (Or.inl ⟨_, rfl, rfl, rfl⟩)

/-! ## Unknown opcodes -/

/-- Claim C11. Unknown opcodes are rejected: when the opcode read from the lead byte
(`lead & 0x7f`) is none of 0x0, 0x1, 0x2, 0x8, 0x9, 0xA, then whatever the FIN bit, the
declared length and the payload, `websocket_recv_frame` returns -1 and leaves the
caller's frame as it was. Equivalently, whenever a call returns 0 the opcode read was
Text, Binary, Close, Ping or Pong and the kind of the returned frame is the one that
opcode maps to. -/
theorem unknown_opcode_rejected (host : Host) (lead : Byte) (rest : List Byte)
    (frame : WebSocketFrame) (hop : lead.val &&& 0x7f ∉ [0x0, 0x1, 0x2, 0x8, 0x9, 0xA]) :
    (∃ r, websocket_recv_frame host (lead :: rest) frame = .returns r
        ∧ r.ret = -1 ∧ r.frame = frame)
      ∧ ∀ (s : List Byte) (r : RecvResult),
          websocket_recv_frame host s frame = .returns r → r.ret = 0 →
          ∃ b t, s = b :: t
            ∧ ((b.val &&& 0x7f = Opcode_Text ∧ r.frame.kind = .Text)
              ∨ (b.val &&& 0x7f = Opcode_Binary ∧ r.frame.kind = .Binary)
              ∨ (b.val &&& 0x7f = Opcode_Close ∧ r.frame.kind = .Close)
              ∨ (b.val &&& 0x7f = Opcode_Ping ∧ r.frame.kind = .Ping)
              ∨ (b.val &&& 0x7f = Opcode_Pong ∧ r.frame.kind = .Pong)) := by
  simp only [List.mem_cons, List.mem_singleton, List.not_mem_nil, or_false, not_or] at hop
  obtain ⟨n0, n1, n2, n8, n9, n10⟩ := hop
  constructor
  · rcases recv_frame_cases host (lead :: rest) frame with h | ⟨b, L, n, k0, k1, k2, k3, tail, hs,
      hres, hop, hL, hmal, hn, h63⟩
    · exact h
    · obtain ⟨rfl, rfl⟩ := List.cons.inj hs
      rcases recv_frame_complete host lead L n k0 k1 k2 k3 tail frame hres hL hop hmal hn h63 with
        ⟨r, -, -, -, hk⟩ | h | ⟨-, hc, -⟩
      · rcases hk with ⟨h, -⟩ | ⟨h, -⟩ | ⟨h, -⟩ | ⟨h, -⟩ | ⟨h, -⟩
        · exact absurd h n1
        · exact absurd h n2
        · exact absurd h n8
        · exact absurd h n9
        · exact absurd h n10
      · exact h
      · exact absurd hc n8
  · intro s r h h0
    rcases recv_frame_cases host s frame with ⟨r1, h1, hret, -⟩ | ⟨b, L, n, k0, k1, k2, k3, tail,
      hs, hres, hop, hL, hmal, hn, h63⟩
    · rw [h] at h1
      obtain rfl := Outcome.returns.inj h1
      rw [h0] at hret
      exact absurd hret (by decide)
    · subst hs
      refine ⟨b, _, rfl, ?_⟩
      rcases recv_frame_complete host b L n k0 k1 k2 k3 tail frame hres hL hop hmal hn h63 with
        ⟨r1, h1, -, -, hk⟩ | ⟨r1, h1, hret, -⟩ | ⟨h1, -⟩
      · rw [h] at h1
        obtain rfl := Outcome.returns.inj h1
        rcases hk with ⟨e, hf⟩ | ⟨e, hf⟩ | ⟨e, -, -, hf⟩ | ⟨e, -, hf⟩ | ⟨e, -, hf⟩
        · exact Or.inl ⟨e, by rw [hf]; rfl⟩
        · exact Or.inr (Or.inl ⟨e, by rw [hf]; rfl⟩)
        · exact Or.inr (Or.inr (Or.inl ⟨e, by rw [hf]; rfl⟩))
        · exact Or.inr (Or.inr (Or.inr (Or.inl ⟨e, by rw [hf]; rfl⟩)))
        · exact Or.inr (Or.inr (Or.inr (Or.inr ⟨e, by rw [hf]; rfl⟩)))
      · rw [h] at h1
        obtain rfl := Outcome.returns.inj h1
        rw [h0] at hret
        exact absurd hret (by decide)
      · rw [h] at h1
        exact Outcome.noConfusion h1

/-- An instance of C11: a final masked frame with the reserved opcode 0x3. -/
theorem unknown_opcode_rejected_witness :
    ((0x83 : Byte).val &&& 0x7f ∉ [0x0, 0x1, 0x2, 0x8, 0x9, 0xA])
      ∧ ∃ r, websocket_recv_frame littleEndianHost (0x83 :: [0x81, 1, 2, 3, 4, 0x40]) .invalid
          = .returns r ∧ r.ret = -1 ∧ r.frame = .invalid :=
  ⟨by decide,
    (unknown_opcode_rejected littleEndianHost 0x83 [0x81, 1, 2, 3, 4, 0x40] .invalid
      (by decide)).1⟩

end WebSocket

/-! ## Close frames, truncated streams, and the outcomes of a call -/

namespace WebSocket

/-- Claim C13. Close reason on receive is big-endian: for a masked final Close frame (lead
byte 0x88) that declares `n` bytes with `2 ≤ n ≤ 125` and whose unmasked payload begins
with `b0`, `b1` (on the wire: `b0 ^ k0`, `b1 ^ k1`), `websocket_recv_frame` returns 0
with a Close frame whose reason is `256 * b0 + b1`, whatever the other `n - 2` payload
bytes and whatever the byte order of the host; the frame holds the reason only, the
payload buffer having been freed. -/
theorem close_reason_big_endian (host : Host) (L : List Byte) (n : Nat) (k0 k1 k2 k3 b0 b1 : Byte)
    (more rest : List Byte) (frame : WebSocketFrame) (hL : MaskedLength L n)
    (h2 : 2 ≤ n) (h125 : n ≤ 125) (hmore : more.length = n - 2)
    (hmalloc : host.malloc n = true) :
    websocket_recv_frame host
        (0x88 :: (L ++ [k0, k1, k2, k3] ++ ((b0 ^^^ k0) :: (b1 ^^^ k1) :: (more ++ rest)))) frame
      = .returns ⟨0, .close (256 * b0.val + b1.val), rest, none, some n, true⟩ := by
  have hlen : ((b0 ^^^ k0) :: (b1 ^^^ k1) :: more).length = n := by
    simp only [List.length_cons, hmore]; omega
  have ht0 : (((b0 ^^^ k0) :: (b1 ^^^ k1) :: more) ++ rest).take n
      = (b0 ^^^ k0) :: (b1 ^^^ k1) :: more := List.take_left' hlen
  have hd0 : (((b0 ^^^ k0) :: (b1 ^^^ k1) :: more) ++ rest).drop n = rest := List.drop_left' hlen
  have ht : ((b0 ^^^ k0) :: (b1 ^^^ k1) :: (more ++ rest)).take n
      = (b0 ^^^ k0) :: (b1 ^^^ k1) :: more := ht0
  have hd : ((b0 ^^^ k0) :: (b1 ^^^ k1) :: (more ++ rest)).drop n = rest := hd0
  have hle : n ≤ ((b0 ^^^ k0) :: (b1 ^^^ k1) :: (more ++ rest)).length := by
    simp only [List.length_cons, List.length_append, hmore]; omega
  have hq : (apply_mask ((b0 ^^^ k0) :: (b1 ^^^ k1) :: more) [k0, k1, k2, k3]).length = n := by
    rw [apply_mask_length, hlen]
  have q0 : (apply_mask ((b0 ^^^ k0) :: (b1 ^^^ k1) :: more) [k0, k1, k2, k3]).getD 0 0 = b0 := by
    rw [apply_mask_getD _ _ 0 (by rw [hlen]; omega)]
    exact xor_cancel b0 k0
  have q1 : (apply_mask ((b0 ^^^ k0) :: (b1 ^^^ k1) :: more) [k0, k1, k2, k3]).getD 1 0 = b1 := by
    rw [apply_mask_getD _ _ 1 (by rw [hlen]; omega)]
    exact xor_cancel b1 k1
  rw [recv_frame_dispatch host 0x88 L n k0 k1 k2 k3 _ frame (by decide) hL (by decide) hmalloc hle
    (by omega), if_neg (by decide), if_neg (by decide), if_neg (by decide), if_neg (by omega),
    if_pos (by decide), ht, hd, if_neg (by omega), close_reason host _ (by omega), q0, q1]

/-- An instance of C13: the reason 1000 (0x03 0xE8) followed by one more payload byte,
on a little-endian host. -/
theorem close_reason_big_endian_witness :
    MaskedLength [byte (0x80 + 3)] 3 ∧ 2 ≤ 3 ∧ 3 ≤ 125 ∧ [(0x55 : Byte)].length = 3 - 2
      ∧ littleEndianHost.malloc 3 = true
      ∧ websocket_recv_frame littleEndianHost
          (0x88 :: ([byte (0x80 + 3)] ++ [1, 2, 3, 4]
            ++ (((0x03 : Byte) ^^^ 1) :: ((0xE8 : Byte) ^^^ 2) :: ([0x55] ++ [9])))) .invalid
          = .returns ⟨0, .close 1000, [9], none, some 3, true⟩ :=
  ⟨.inline 3 (by decide), by decide, by decide, rfl, rfl,
    close_reason_big_endian littleEndianHost [byte (0x80 + 3)] 3 1 2 3 4 0x03 0xE8 [0x55] [9]
      .invalid (.inline 3 (by decide)) (by decide) (by decide) rfl rfl⟩

/-- Claim C20, at the inputs where it fails. For a masked final Close frame (lead byte 0x88)
that declares `n < 2` payload bytes, all present, with the allocation succeeding,
`websocket_recv_frame` reads the two bytes of the reason from a buffer of `n` bytes:
the read is outside the buffer. -/
theorem close_reason_read_outside_buffer (host : Host) (L : List Byte) (n : Nat)
    (k0 k1 k2 k3 : Byte) (tail : List Byte) (frame : WebSocketFrame) (hL : MaskedLength L n)
    (hlt : n < 2) (hn : n ≤ tail.length) (hmalloc : host.malloc n = true) :
    websocket_recv_frame host (0x88 :: (L ++ [k0, k1, k2, k3] ++ tail)) frame = .outOfBounds := by
  have hq : (apply_mask (tail.take n) [k0, k1, k2, k3]).length < 2 := by
    rw [apply_mask_length]
    simp only [List.length_take]
    omega
  rw [recv_frame_dispatch host 0x88 L n k0 k1 k2 k3 tail frame (by decide) hL (by decide) hmalloc
    hn (by omega), if_neg (by decide), if_neg (by decide), if_neg (by decide), if_neg (by omega),
    if_pos (by decide), if_pos hq]

/-- The failing inputs of C20: a Close frame with an empty payload, 0x88 0x80 and a key,
and a Close frame with a one-byte payload. -/
theorem close_reason_read_outside_buffer_witness :
    MaskedLength [byte (0x80 + 0)] 0 ∧ 0 < 2 ∧ 0 ≤ ([] : List Byte).length
      ∧ littleEndianHost.malloc 0 = true
      ∧ websocket_recv_frame littleEndianHost (0x88 :: ([byte (0x80 + 0)] ++ [1, 2, 3, 4] ++ []))
          .invalid = .outOfBounds
      ∧ websocket_recv_frame littleEndianHost [0x88, 0x80, 1, 2, 3, 4] .invalid = .outOfBounds
      ∧ websocket_recv_frame bigEndianHost [0x88, 0x81, 1, 2, 3, 4, 0x03] .invalid = .outOfBounds :=
  ⟨.inline 0 (by decide), by decide, by decide, rfl,
    close_reason_read_outside_buffer littleEndianHost [byte (0x80 + 0)] 0 1 2 3 4 [] .invalid
      (.inline 0 (by decide)) (by decide) (by decide) rfl,
    by decide, by decide⟩

/-- The three ways a call of `websocket_recv_frame` can end: it returns 0 and the output
frame has kind Text, Binary, Ping, Pong or Close; or it returns -1 and the output frame
is what it was before the call; or the stream is a masked final Close frame declaring
fewer than two payload bytes and the call reads outside its payload buffer. -/
theorem recv_frame_three_ways (host : Host) (s : List Byte) (frame : WebSocketFrame) :
    (∃ r, websocket_recv_frame host s frame = .returns r ∧ r.ret = 0
          ∧ (r.frame.kind = .Text ∨ r.frame.kind = .Binary ∨ r.frame.kind = .Ping
            ∨ r.frame.kind = .Pong ∨ r.frame.kind = .Close))
        ∨ (∃ r, websocket_recv_frame host s frame = .returns r ∧ r.ret = -1 ∧ r.frame = frame)
        ∨ (websocket_recv_frame host s frame = .outOfBounds
            ∧ ∃ lead L n k0 k1 k2 k3 tail, s = lead :: (L ++ [k0, k1, k2, k3] ++ tail)
                ∧ lead.val &&& 0x7f = Opcode_Close ∧ (lead.val &&& 0x80) > 0
                ∧ MaskedLength L n ∧ n < 2) := by
  rcases recv_frame_cases host s frame with h | ⟨lead, L, n, k0, k1, k2, k3, tail, hs, hres, hop,
    hL, hmal, hn, h63⟩
  · exact Or.inr (Or.inl h)
  · subst hs
    rcases recv_frame_complete host lead L n k0 k1 k2 k3 tail frame hres hL hop hmal hn h63 with
      ⟨r, h, h0, -, hk⟩ | h | ⟨h, hc, hfin, hlt⟩
    · refine Or.inl ⟨r, h, h0, ?_⟩
      rcases hk with ⟨-, hf⟩ | ⟨-, hf⟩ | ⟨-, -, -, hf⟩ | ⟨-, -, hf⟩ | ⟨-, -, hf⟩
      · exact Or.inl (by rw [hf]; rfl)
      · exact Or.inr (Or.inl (by rw [hf]; rfl))
      · exact Or.inr (Or.inr (Or.inr (Or.inr (by rw [hf]; rfl))))
      · exact Or.inr (Or.inr (Or.inl (by rw [hf]; rfl)))
      · exact Or.inr (Or.inr (Or.inr (Or.inl (by rw [hf]; rfl))))
    · exact Or.inr (Or.inl h)
    · exact Or.inr (Or.inr ⟨h, lead, L, n, k0, k1, k2, k3, tail, rfl, hc, hfin, hL, hlt⟩)

/-- A length field with the mask flag set is read in one way only: two streams that
agree and both start with such a field start with the same field. -/
theorem MaskedLength.unique {L L2 x y : List Byte} {n n2 : Nat} (h : MaskedLength L n)
    (h2 : MaskedLength L2 n2) (e : L ++ x = L2 ++ y) : L = L2 ∧ n = n2 ∧ x = y := by
  have a := recv_payload_length_masked littleEndianHost L x n h
  have b := recv_payload_length_masked littleEndianHost L2 y n2 h2
  rw [e, b] at a
  simp only [Prod.mk.injEq, Option.some.injEq] at a
  obtain ⟨a1, a2⟩ := a
  subst a2
  exact ⟨List.append_cancel_right e, a1.symm, rfl⟩

/-- Claim C16. Truncated input is never accepted: when `websocket_recv_frame` succeeds on a
stream `s` (return 0), having consumed the first `m` bytes of it (all but the
unread rest), then on every strict prefix of those `m` bytes, that is on `s.take j`
with `j < m`, it returns -1 and leaves the caller's frame as it was. -/
theorem truncated_input_rejected (host : Host) (s : List Byte) (frame g : WebSocketFrame)
    (r : RecvResult) (j : Nat) (h : websocket_recv_frame host s frame = .returns r)
    (h0 : r.ret = 0) (hj : j < s.length - r.socket.length) :
    ∃ r2, websocket_recv_frame host (s.take j) g = .returns r2 ∧ r2.ret = -1 ∧ r2.frame = g := by
  rcases recv_frame_cases host s frame with ⟨r1, h1, hret, -⟩ | ⟨lead, L, n, k0, k1, k2, k3, tail,
    hs, hres, hop, hL, hmal, hn, h63⟩
  · rw [h] at h1
    obtain rfl := Outcome.returns.inj h1
    rw [h0] at hret
    exact absurd hret (by decide)
  have hsock : r.socket = tail.drop n := by
    subst hs
    rcases recv_frame_complete host lead L n k0 k1 k2 k3 tail frame hres hL hop hmal hn h63 with
      ⟨r1, h1, -, hsk, -⟩ | ⟨r1, h1, hret, -⟩ | ⟨h1, -⟩
    · rw [h] at h1
      obtain rfl := Outcome.returns.inj h1
      exact hsk
    · rw [h] at h1
      obtain rfl := Outcome.returns.inj h1
      rw [h0] at hret
      exact absurd hret (by decide)
    · rw [h] at h1
      exact Outcome.noConfusion h1
  have hslen : s.length = 1 + L.length + 4 + tail.length := by
    rw [hs]; simp only [List.length_cons, List.length_append, List.length_nil]; omega
  have hjm : j < 1 + L.length + 4 + n := by
    rw [hsock, List.length_drop, hslen] at hj
    omega
  rcases recv_frame_cases host (s.take j) g with h | ⟨lead2, L2, n2, a0, a1, a2, a3, tail2, hs2,
    -, -, hL2, -, hn2, -⟩
  · exact h
  exfalso
  have hsplit : s.take j ++ s.drop j = s := List.take_append_drop j s
  generalize s.drop j = d at hsplit
  rw [hs2, hs] at hsplit
  have e : L2 ++ ([a0, a1, a2, a3] ++ (tail2 ++ d)) = L ++ ([k0, k1, k2, k3] ++ tail) := by
    have := (List.cons.inj hsplit).2
    simpa [List.append_assoc] using this
  obtain ⟨hLL, hnn, -⟩ := MaskedLength.unique hL2 hL e
  have hLlen : L2.length = L.length := congrArg List.length hLL
  have htl : (s.take j).length = 1 + L2.length + 4 + tail2.length := by
    rw [hs2]; simp only [List.length_cons, List.length_append, List.length_nil]; omega
  have : (s.take j).length ≤ j := by simp [List.length_take]
  omega

/-- An instance of C16: the masked Text frame "Hello" is accepted, and cut after seven of
its eleven bytes (inside the payload) it is rejected. -/
theorem truncated_input_rejected_witness :
    websocket_recv_frame littleEndianHost
        [0x81, 0x85, 1, 2, 3, 4, 0x49, 0x67, 0x6f, 0x68, 0x6e, 9] .invalid
        = .returns ⟨0, .text (some [0x48, 0x65, 0x6c, 0x6c, 0x6f]) 5, [9], none, some 5, false⟩
      ∧ (0 : Int) = 0
      ∧ 7 < [0x81, 0x85, 1, 2, 3, 4, 0x49, 0x67, 0x6f, 0x68, 0x6e, (9 : Byte)].length
            - [(9 : Byte)].length
      ∧ ∃ r2, websocket_recv_frame littleEndianHost
            ([0x81, 0x85, 1, 2, 3, 4, 0x49, 0x67, 0x6f, 0x68, 0x6e, 9].take 7) (.close 1)
          = .returns r2 ∧ r2.ret = -1 ∧ r2.frame = .close 1 :=
  ⟨by decide, rfl, by decide,
    truncated_input_rejected littleEndianHost
      [0x81, 0x85, 1, 2, 3, 4, 0x49, 0x67, 0x6f, 0x68, 0x6e, 9] .invalid (.close 1)
      ⟨0, .text (some [0x48, 0x65, 0x6c, 0x6c, 0x6f]) 5, [9], none, some 5, false⟩ 7
      (by decide) rfl (by decide)⟩

end WebSocket

/-! ## Send path: wire layout, Close reason, failed writes, invalid frames -/

namespace WebSocket

/-- Claim C14. Wire layout of the send path: for a Text, Binary, Ping or Pong frame with
payload `p` of length `n`, on a socket whose writes all complete, `send_frame` returns 0
and the bytes written are exactly the lead byte `0x80 | opcode` (0x81, 0x82, 0x89,
0x8A: FIN set, reserved bits zero), then the length field of `n` with the mask flag
clear (one byte `n`; or 126 and two bytes; or 127 and eight bytes, big-endian), then
the `n` bytes of `p` unchanged; no masking key is written. When `n = 0` exactly the two
bytes lead, 0x00 are written by two writes, and no payload write is issued. -/
theorem send_frame_wire_layout (host : Host) (w : List Byte) (c : Nat) (f : WebSocketFrame)
    (p : List Byte) (lead : Byte)
    (hf : (f = .text (some p) p.length ∧ lead = byte (0x80 ||| Opcode_Text))
      ∨ (f = .binary (some p) p.length ∧ lead = byte (0x80 ||| Opcode_Binary))
      ∨ (f = .ping (some p) p.length ∧ lead = byte (0x80 ||| Opcode_Ping))
      ∨ (f = .pong (some p) p.length ∧ lead = byte (0x80 ||| Opcode_Pong))) :
    send_frame host ⟨[], w, c⟩ f
        = .returns ⟨0, none, ⟨[],
            w ++ lead ::
              ((if p.length ≤ 125 then [byte p.length]
                else if p.length ≤ 65535 then [126, byte (p.length / 256), byte (p.length % 256)]
                else [127, byte (p.length / 2 ^ 56), byte (p.length / 2 ^ 48),
                  byte (p.length / 2 ^ 40), byte (p.length / 2 ^ 32), byte (p.length / 2 ^ 24),
                  byte (p.length / 2 ^ 16), byte (p.length / 2 ^ 8), byte p.length]) ++ p),
            c + (if p.length = 0 then 2 else if p.length ≤ 125 then 3 else 4)⟩⟩
      ∧ (p = [] → send_frame host ⟨[], w, c⟩ f = .returns ⟨0, none, ⟨[], w ++ [lead, 0x00], c + 2⟩⟩)
      ∧ (lead = 0x81 ∨ lead = 0x82 ∨ lead = 0x89 ∨ lead = 0x8A) := by
  have hsl := send_length_complete host (w ++ [lead]) (c + 1) p.length
  have hb : bytesAt (some p) p.length = some p := by simp [bytesAt]
  have main : send_frame host ⟨[], w, c⟩ f
        = .returns ⟨0, none, ⟨[],
            w ++ lead ::
              ((if p.length ≤ 125 then [byte p.length]
                else if p.length ≤ 65535 then [126, byte (p.length / 256), byte (p.length % 256)]
                else [127, byte (p.length / 2 ^ 56), byte (p.length / 2 ^ 48),
                  byte (p.length / 2 ^ 40), byte (p.length / 2 ^ 32), byte (p.length / 2 ^ 24),
                  byte (p.length / 2 ^ 16), byte (p.length / 2 ^ 8), byte p.length]) ++ p),
            c + (if p.length = 0 then 2 else if p.length ≤ 125 then 3 else 4)⟩⟩ := by
    by_cases hz : p.length = 0
    · have hp : p = [] := List.length_eq_zero.mp hz
      subst hp
      simp only [List.length_nil] at hsl
      rcases hf with ⟨rfl, rfl⟩ | ⟨rfl, rfl⟩ | ⟨rfl, rfl⟩ | ⟨rfl, rfl⟩ <;>
        simp [send_frame, WebSocketFrame.kind, send_complete, hsl]
    · by_cases h1 : p.length ≤ 125
      · rw [if_pos h1] at hsl
        rcases hf with ⟨rfl, rfl⟩ | ⟨rfl, rfl⟩ | ⟨rfl, rfl⟩ | ⟨rfl, rfl⟩ <;>
          simp [send_frame, WebSocketFrame.kind, send_complete, hsl, hz, hb, h1]
      · by_cases h2 : p.length ≤ 65535
        · rw [if_neg h1, if_pos h2] at hsl
          rcases hf with ⟨rfl, rfl⟩ | ⟨rfl, rfl⟩ | ⟨rfl, rfl⟩ | ⟨rfl, rfl⟩ <;>
            simp [send_frame, WebSocketFrame.kind, send_complete, hsl, hz, hb, h1, h2]
        · rw [if_neg h1, if_neg h2] at hsl
          rcases hf with ⟨rfl, rfl⟩ | ⟨rfl, rfl⟩ | ⟨rfl, rfl⟩ | ⟨rfl, rfl⟩ <;>
            simp [send_frame, WebSocketFrame.kind, send_complete, hsl, hz, hb, h1, h2]
  refine ⟨main, ?_, ?_⟩
  · intro hp
    subst hp
    rw [main]
    rfl
  · rcases hf with ⟨-, rfl⟩ | ⟨-, rfl⟩ | ⟨-, rfl⟩ | ⟨-, rfl⟩
    · exact Or.inl (by decide)
    · exact Or.inr (Or.inl (by decide))
    · exact Or.inr (Or.inr (Or.inl (by decide)))
    · exact Or.inr (Or.inr (Or.inr (by decide)))

/-- An instance of C14: the Text frame "Hello" and the empty Ping. -/
theorem send_frame_wire_layout_witness :
    ((WebSocketFrame.text (some [0x48, 0x65, 0x6c, 0x6c, 0x6f]) 5
          = .text (some [0x48, 0x65, 0x6c, 0x6c, 0x6f]) [0x48, 0x65, 0x6c, 0x6c, (0x6f : Byte)].length
        ∧ (0x81 : Byte) = byte (0x80 ||| Opcode_Text))
      ∨ (WebSocketFrame.text (some [0x48, 0x65, 0x6c, 0x6c, 0x6f]) 5
          = .binary (some [0x48, 0x65, 0x6c, 0x6c, 0x6f]) [0x48, 0x65, 0x6c, 0x6c, (0x6f : Byte)].length
        ∧ (0x81 : Byte) = byte (0x80 ||| Opcode_Binary))
      ∨ (WebSocketFrame.text (some [0x48, 0x65, 0x6c, 0x6c, 0x6f]) 5
          = .ping (some [0x48, 0x65, 0x6c, 0x6c, 0x6f]) [0x48, 0x65, 0x6c, 0x6c, (0x6f : Byte)].length
        ∧ (0x81 : Byte) = byte (0x80 ||| Opcode_Ping))
      ∨ (WebSocketFrame.text (some [0x48, 0x65, 0x6c, 0x6c, 0x6f]) 5
          = .pong (some [0x48, 0x65, 0x6c, 0x6c, 0x6f]) [0x48, 0x65, 0x6c, 0x6c, (0x6f : Byte)].length
        ∧ (0x81 : Byte) = byte (0x80 ||| Opcode_Pong)))
      ∧ send_frame bigEndianHost ⟨[], [], 0⟩ (.text (some [0x48, 0x65, 0x6c, 0x6c, 0x6f]) 5)
          = .returns ⟨0, none, ⟨[], [0x81, 0x05, 0x48, 0x65, 0x6c, 0x6c, 0x6f], 3⟩⟩
      ∧ send_frame bigEndianHost ⟨[], [], 0⟩ (.ping (some []) 0)
          = .returns ⟨0, none, ⟨[], [0x89, 0x00], 2⟩⟩ :=
  ⟨Or.inl ⟨rfl, rfl⟩,
    (send_frame_wire_layout bigEndianHost [] 0 (.text (some [0x48, 0x65, 0x6c, 0x6c, 0x6f]) 5)
      [0x48, 0x65, 0x6c, 0x6c, 0x6f] 0x81 (Or.inl ⟨rfl, rfl⟩)).1,
    (send_frame_wire_layout bigEndianHost [] 0 (.ping (some []) 0) [] 0x89
      (Or.inr (Or.inr (Or.inl ⟨rfl, rfl⟩)))).2.1 rfl⟩

/-- Claim C12, evaluated on the code. `websocket_send_close` writes 0x88, 0x02 and then the two
bytes of `reason` as they lie in the memory of the host, without a conversion to
network order: on a little-endian host the low byte goes first, so the reason 1000
(0x03E8) is written as 0xE8 0x03, where the claim has 0x03 0xE8; only on a big-endian
host are the bytes `reason / 256`, `reason % 256`. -/
theorem send_close_host_order (host : Host) (w : List Byte) (c reason : Nat) :
    websocket_send_close host ⟨[], w, c⟩ reason
        = .returns ⟨0, none, ⟨[],
            w ++ 0x88 :: 0x02 ::
              (if host.littleEndian then [byte reason, byte (reason / 256)]
               else [byte (reason / 256), byte reason]),
            c + 3⟩⟩
      ∧ websocket_send_close littleEndianHost freshOutbound 1000
          = .returns ⟨0, none, ⟨[], [0x88, 0x02, 0xE8, 0x03], 3⟩⟩
      ∧ websocket_send_close bigEndianHost freshOutbound 1000
          = .returns ⟨0, none, ⟨[], [0x88, 0x02, 0x03, 0xE8], 3⟩⟩ := by
  refine ⟨?_, by decide, by decide⟩
  have hsl := send_length_complete host (w ++ [0x88]) (c + 1) 2
  rw [if_pos (by decide)] at hsl
  have e : byte (128 ||| Opcode_Close) = 0x88 := by decide
  have e2 : byte 2 = 0x02 := by decide
  cases hle : host.littleEndian <;>
    simp [websocket_send_close, send_frame, WebSocketFrame.kind, send_complete, hsl, e, e2,
      bytesAt, store, toLE, hle]

/-- Claim C15, evaluated on the code. When the transport takes the lead byte and the length
byte but only `k < p.length` bytes of the payload `p` (of 1 to 125 bytes) of a Text
frame, `send_frame` returns 0, not -1: the payload write is only tested for a
negative result. The writes before it are tested against the size requested: a
short write of the lead byte or of the length byte, and a failed payload write,
give -1 with no further write. -/
theorem send_frame_short_payload_write (host : Host) (p : List Byte) (k : Nat)
    (hp : 0 < p.length) (hp125 : p.length ≤ 125) (hk : k < p.length) :
    send_frame host ⟨[1, 1, (k : Int)], [], 0⟩ (.text (some p) p.length)
        = .returns ⟨0, none, ⟨[], [0x81, byte p.length] ++ p.take k, 3⟩⟩
      ∧ send_frame host ⟨[0], [], 0⟩ (.text (some p) p.length) = .returns ⟨-1, none, ⟨[], [], 1⟩⟩
      ∧ send_frame host ⟨[-1], [], 0⟩ (.text (some p) p.length) = .returns ⟨-1, none, ⟨[], [], 1⟩⟩
      ∧ send_frame host ⟨[1, 0], [], 0⟩ (.text (some p) p.length)
          = .returns ⟨-1, none, ⟨[], [0x81], 2⟩⟩
      ∧ send_frame host ⟨[1, -1], [], 0⟩ (.text (some p) p.length)
          = .returns ⟨-1, none, ⟨[], [0x81], 2⟩⟩
      ∧ send_frame host ⟨[1, 1, -1], [], 0⟩ (.text (some p) p.length)
          = .returns ⟨-1, none, ⟨[], [0x81, byte p.length], 3⟩⟩ := by
  have e : byte (128 ||| Opcode_Text) = 0x81 := by decide
  have hz : p.length ≠ 0 := by omega
  have hb : bytesAt (some p) p.length = some p := by simp [bytesAt]
  have hk0 : ¬ ((k : Int) < 0) := by omega
  have hmin : ¬ (((k : Int) ⊓ (p.length : Int)) < 0) := by
    rw [min_eq_left (by omega : (k : Int) ≤ (p.length : Int))]
    exact hk0
  refine ⟨?_, ?_, ?_, ?_, ?_, ?_⟩ <;>
    simp [send_frame, send_length, send, WebSocketFrame.kind, e, hp125, hz, hb, hk0, hmin]

/-- The failing input of C15: the Text frame "Hello" on a transport that takes two of
the five payload bytes. -/
theorem send_frame_short_payload_write_witness :
    0 < [0x48, 0x65, 0x6c, 0x6c, (0x6f : Byte)].length
      ∧ [0x48, 0x65, 0x6c, 0x6c, (0x6f : Byte)].length ≤ 125
      ∧ 2 < [0x48, 0x65, 0x6c, 0x6c, (0x6f : Byte)].length
      ∧ send_frame littleEndianHost ⟨[1, 1, 2], [], 0⟩ (.text (some [0x48, 0x65, 0x6c, 0x6c, 0x6f]) 5)
          = .returns ⟨0, none, ⟨[], [0x81, 0x05, 0x48, 0x65], 3⟩⟩ :=
  ⟨by decide, by decide, by decide,
    (send_frame_short_payload_write littleEndianHost [0x48, 0x65, 0x6c, 0x6c, 0x6f] 2
      (by decide) (by decide) (by decide)).1⟩

/-- Claim C18. Sending an Invalid frame is rejected before any I/O: for a frame of kind
Invalid, `send_frame` returns -1 with `errno` set to `EINVAL` and leaves the socket
as it was (no byte written, no write issued); and each public send operation hands
`send_frame` a frame of its own kind, Text, Binary, Ping, Pong or Close, never Invalid. -/
theorem invalid_frame_rejected (host : Host) (socket : Outbound) (f : WebSocketFrame)
    (h : f.kind = .Invalid) :
    send_frame host socket f = .returns ⟨-1, some .EINVAL, socket⟩
      ∧ (∀ (buf : Option (List Byte)) (n : Nat),
          websocket_send_text host socket buf n = send_frame host socket (.text buf n)
            ∧ (WebSocketFrame.text buf n).kind = .Text
            ∧ websocket_send_binary host socket buf n = send_frame host socket (.binary buf n)
            ∧ (WebSocketFrame.binary buf n).kind = .Binary
            ∧ websocket_send_ping host socket buf n = send_frame host socket (.ping buf n)
            ∧ (WebSocketFrame.ping buf n).kind = .Ping
            ∧ websocket_send_pong host socket buf n = send_frame host socket (.pong buf n)
            ∧ (WebSocketFrame.pong buf n).kind = .Pong
            ∧ websocket_send_close host socket n = send_frame host socket (.close n)
            ∧ (WebSocketFrame.close n).kind = .Close) := by
  refine ⟨?_, fun buf n => ⟨rfl, rfl, rfl, rfl, rfl, rfl, rfl, rfl, rfl, rfl⟩⟩
  unfold send_frame
  rw [if_pos h]

/-- An instance of C18: the all-zero frame on a socket that already carries two bytes. -/
theorem invalid_frame_rejected_witness :
    WebSocketFrame.invalid.kind = .Invalid
      ∧ send_frame littleEndianHost ⟨[], [0x81, 0x00], 2⟩ .invalid
          = .returns ⟨-1, some .EINVAL, ⟨[], [0x81, 0x00], 2⟩⟩ :=
  ⟨rfl, (invalid_frame_rejected littleEndianHost ⟨[], [0x81, 0x00], 2⟩ .invalid rfl).1⟩

/-- Claim C19. Frame release resets and is idempotent: for every frame,
`websocket_destroy_frame` leaves the all-zero frame, of kind Invalid; it hands at most
one buffer to `free`: the payload buffer of a Text, Binary, Ping or Pong frame when
the pointer is set, nothing when it is null and nothing for Close and Invalid; and
a second call on the released frame frees nothing and leaves it unchanged, so
releasing twice gives the frame that releasing once gives. -/
theorem destroy_frame_resets (f : WebSocketFrame) :
    (websocket_destroy_frame f).1 = .invalid
      ∧ (websocket_destroy_frame f).1.kind = .Invalid
      ∧ (websocket_destroy_frame f).2.length ≤ 1
      ∧ (∀ buf n, f = .text (some buf) n ∨ f = .binary (some buf) n ∨ f = .ping (some buf) n
            ∨ f = .pong (some buf) n → (websocket_destroy_frame f).2 = [buf])
      ∧ (∀ n, f = .text none n ∨ f = .binary none n ∨ f = .ping none n ∨ f = .pong none n
            → (websocket_destroy_frame f).2 = [])
      ∧ (f.kind = .Close ∨ f.kind = .Invalid → (websocket_destroy_frame f).2 = [])
      ∧ websocket_destroy_frame (websocket_destroy_frame f).1 = (.invalid, [])
      ∧ (websocket_destroy_frame (websocket_destroy_frame f).1).1 = (websocket_destroy_frame f).1 := by
  refine ⟨rfl, rfl, ?_, ?_, ?_, ?_, rfl, rfl⟩
  · cases f with
    | invalid => simp [websocket_destroy_frame]
    | close r => simp [websocket_destroy_frame]
    | text b n => cases b <;> simp [websocket_destroy_frame, free_if_set]
    | binary b n => cases b <;> simp [websocket_destroy_frame, free_if_set]
    | ping b n => cases b <;> simp [websocket_destroy_frame, free_if_set]
    | pong b n => cases b <;> simp [websocket_destroy_frame, free_if_set]
  · rintro buf n (rfl | rfl | rfl | rfl) <;> rfl
  · rintro n (rfl | rfl | rfl | rfl) <;> rfl
  · intro h
    cases f with
    | invalid => rfl
    | close r => rfl
    | text b n => simp [WebSocketFrame.kind] at h
    | binary b n => simp [WebSocketFrame.kind] at h
    | ping b n => simp [WebSocketFrame.kind] at h
    | pong b n => simp [WebSocketFrame.kind] at h

/-- An instance of C19: releasing a received Text frame frees its buffer once, and
releasing the result again frees nothing. -/
theorem destroy_frame_resets_witness :
    websocket_destroy_frame (.text (some [0x48, 0x69]) 2) = (.invalid, [[0x48, 0x69]])
      ∧ websocket_destroy_frame (websocket_destroy_frame (.text (some [0x48, 0x69]) 2)).1
          = (.invalid, [])
      ∧ (websocket_destroy_frame (.close 1000)).2 = [] :=
  ⟨by
      have h := (destroy_frame_resets (.text (some [0x48, 0x69]) 2)).2.2.2.1 [0x48, 0x69] 2
        (Or.inl rfl)
      exact Prod.ext rfl h,
    (destroy_frame_resets (.text (some [0x48, 0x69]) 2)).2.2.2.2.2.2.1,
    (destroy_frame_resets (.close 1000)).2.2.2.2.2.1 (Or.inl rfl)⟩

end WebSocket

/-! ## The FIN bit of data frames -/

namespace WebSocket

/-- The result of `websocket_recv_frame` for a Text or Binary opcode does not depend on
the `is_final` field of the header. -/
theorem recv_frame_data_fin (host : Host) (a b : Byte) (rest : List Byte) (frame : WebSocketFrame)
    (ha : a.val &&& 0x70 = 0) (hb : b.val &&& 0x70 = 0) (hab : a.val &&& 0x7f = b.val &&& 0x7f)
    (hop : b.val &&& 0x7f = Opcode_Text ∨ b.val &&& 0x7f = Opcode_Binary) :
    websocket_recv_frame host (a :: rest) frame = websocket_recv_frame host (b :: rest) frame := by
  unfold websocket_recv_frame
  rw [recv_header_cons, recv_header_cons, if_neg (not_not.mpr ha), if_neg (not_not.mpr hb)]
  dsimp only
  rcases recv_payload_length host rest with ⟨_ | payload_length, s2⟩
  · rfl
  · dsimp only
    rcases recv_masking_key s2 with ⟨_ | key, s3⟩
    · rfl
    · dsimp only
      rw [hab]
      rcases hop with h | h
      · rw [h]
        simp [Opcode_Text, Opcode_Continuation]
      · rw [h]
        simp [Opcode_Binary, Opcode_Text, Opcode_Continuation]

/-- Claim C21. The FIN bit is ignored for data frames: for the opcodes Text and Binary the
whole result of `websocket_recv_frame` (return value, frame with its kind, length and
payload bytes, unread stream, hence the bytes consumed) is the same for the lead
byte with FIN clear (0x01, 0x02) and with FIN set (0x81, 0x82), whatever follows in
the stream; and a complete masked frame with lead byte 0x01 or 0x02, the first
fragment of a fragmented message, is accepted with return 0 as a Text or Binary frame
that carries its `n` unmasked payload bytes. -/
theorem fin_ignored_for_data_frames (host : Host) (rest : List Byte) (frame : WebSocketFrame)
    (L : List Byte) (n : Nat) (k0 k1 k2 k3 : Byte) (tail : List Byte)
    (hL : MaskedLength L n) (hn : n ≤ tail.length) (hmalloc : host.malloc n = true)
    (h63 : n < 2 ^ 63) :
    websocket_recv_frame host (0x01 :: rest) frame = websocket_recv_frame host (0x81 :: rest) frame
      ∧ websocket_recv_frame host (0x02 :: rest) frame
          = websocket_recv_frame host (0x82 :: rest) frame
      ∧ websocket_recv_frame host (0x01 :: (L ++ [k0, k1, k2, k3] ++ tail)) frame
          = .returns ⟨0, .text (some (apply_mask (tail.take n) [k0, k1, k2, k3])) n, tail.drop n,
              none, some n, false⟩
      ∧ websocket_recv_frame host (0x02 :: (L ++ [k0, k1, k2, k3] ++ tail)) frame
          = .returns ⟨0, .binary (some (apply_mask (tail.take n) [k0, k1, k2, k3])) n, tail.drop n,
              none, some n, false⟩ := by
  refine ⟨recv_frame_data_fin host 0x01 0x81 rest frame (by decide) (by decide) (by decide)
      (Or.inl (by decide)),
    recv_frame_data_fin host 0x02 0x82 rest frame (by decide) (by decide) (by decide)
      (Or.inr (by decide)), ?_, ?_⟩
  · rw [recv_frame_dispatch host 0x01 L n k0 k1 k2 k3 tail frame (by decide) hL (by decide)
      hmalloc hn h63, if_pos (by decide)]
  · rw [recv_frame_dispatch host 0x02 L n k0 k1 k2 k3 tail frame (by decide) hL (by decide)
      hmalloc hn h63, if_neg (by decide), if_pos (by decide)]

/-- An instance of C21: the non-final masked Text frame "Hello". -/
theorem fin_ignored_for_data_frames_witness :
    MaskedLength [byte (0x80 + 5)] 5 ∧ 5 ≤ [0x49, 0x67, 0x6f, 0x68, 0x6e, (9 : Byte)].length
      ∧ littleEndianHost.malloc 5 = true ∧ 5 < 2 ^ 63
      ∧ websocket_recv_frame littleEndianHost
          (0x01 :: ([byte (0x80 + 5)] ++ [1, 2, 3, 4] ++ [0x49, 0x67, 0x6f, 0x68, 0x6e, 9])) .invalid
          = .returns ⟨0, .text (some [0x48, 0x65, 0x6c, 0x6c, 0x6f]) 5, [9], none, some 5, false⟩ :=
  ⟨.inline 5 (by decide), by decide, rfl, by decide,
    (fin_ignored_for_data_frames littleEndianHost [] .invalid [byte (0x80 + 5)] 5 1 2 3 4
      [0x49, 0x67, 0x6f, 0x68, 0x6e, 9] (.inline 5 (by decide)) (by decide) rfl (by decide)).2.2.1⟩

end WebSocket

/-! ## No partial frame -/

namespace WebSocket

/-- The two embeddings of `websocket_recv_frame` agree: whenever the call reads inside
its buffers the flat-memory run gives the same result, and where the call reads
outside the payload buffer the flat-memory run returns 0 with a Close frame. -/
theorem recv_frame_flat_agrees (host : Host) (beyond : Nat → Byte) (s : List Byte)
    (frame : WebSocketFrame) :
    (websocket_recv_frame host s frame = .returns (websocket_recv_frame_flat host beyond s frame))
      ∨ (websocket_recv_frame host s frame = .outOfBounds
          ∧ (websocket_recv_frame_flat host beyond s frame).ret = 0
          ∧ (websocket_recv_frame_flat host beyond s frame).frame.kind = .Close) := by
  unfold websocket_recv_frame websocket_recv_frame_flat
  rcases recv_header s with ⟨_ | hd, s1⟩
  · exact Or.inl rfl
  dsimp only
  rcases recv_payload_length host s1 with ⟨_ | n, s2⟩
  · exact Or.inl rfl
  dsimp only
  rcases recv_masking_key s2 with ⟨_ | key, s3⟩
  · exact Or.inl rfl
  dsimp only [recv]
  by_cases h1 : hd.opcode = Opcode_Continuation
  · rw [if_pos h1, if_pos h1]; exact Or.inl rfl
  rw [if_neg h1, if_neg h1]
  by_cases h2 : (!host.malloc n) = true
  · rw [if_pos h2, if_pos h2]; exact Or.inl rfl
  rw [if_neg h2, if_neg h2]
  by_cases h3 : ((s3.take n).length : Int) ≠ toInt64 n
  · rw [if_pos h3, if_pos h3]; exact Or.inl rfl
  rw [if_neg h3, if_neg h3]
  by_cases h4 : hd.opcode = Opcode_Text
  · rw [if_pos h4, if_pos h4]; exact Or.inl rfl
  rw [if_neg h4, if_neg h4]
  by_cases h5 : hd.opcode = Opcode_Binary
  · rw [if_pos h5, if_pos h5]; exact Or.inl rfl
  rw [if_neg h5, if_neg h5]
  by_cases h6 : (!hd.is_final) = true
  · rw [if_pos h6, if_pos h6]; exact Or.inl rfl
  rw [if_neg h6, if_neg h6]
  by_cases h7 : n > 125
  · rw [if_pos h7, if_pos h7]; exact Or.inl rfl
  rw [if_neg h7, if_neg h7]
  by_cases h8 : hd.opcode = Opcode_Close
  · rw [if_pos h8, if_pos h8]
    by_cases h9 : (apply_mask (s3.take n) key).length < 2
    · rw [if_pos h9]
      exact Or.inr ⟨rfl, rfl, rfl⟩
    · rw [if_neg h9, List.take_append_of_le_length (by omega)]
      exact Or.inl rfl
  rw [if_neg h8, if_neg h8]
  by_cases h10 : hd.opcode = Opcode_Ping
  · rw [if_pos h10, if_pos h10]; exact Or.inl rfl
  rw [if_neg h10, if_neg h10]
  by_cases h11 : hd.opcode = Opcode_Pong
  · rw [if_pos h11, if_pos h11]; exact Or.inl rfl
  rw [if_neg h11, if_neg h11]
  exact Or.inl rfl

/-- Claim C17. No partial frame is returned: for every input stream and every initial content
of the output frame, `websocket_recv_frame` either returns 0 and the output frame has
kind Text, Binary, Ping, Pong or Close (never Invalid), or returns -1 and the output
frame is exactly what it was before the call. This holds of the call as it runs on a
flat memory, whatever bytes lie behind the payload buffer; wherever the call reads
inside its buffers that run is the result of `websocket_recv_frame` itself; and on
the one kind of stream where the call reads outside the payload buffer (a final Close
frame declaring fewer than two bytes) it returns 0 with a frame of kind Close. -/
theorem no_partial_frame (host : Host) (beyond : Nat → Byte) (s : List Byte)
    (frame : WebSocketFrame) :
    (((websocket_recv_frame_flat host beyond s frame).ret = 0
          ∧ ((websocket_recv_frame_flat host beyond s frame).frame.kind = .Text
            ∨ (websocket_recv_frame_flat host beyond s frame).frame.kind = .Binary
            ∨ (websocket_recv_frame_flat host beyond s frame).frame.kind = .Ping
            ∨ (websocket_recv_frame_flat host beyond s frame).frame.kind = .Pong
            ∨ (websocket_recv_frame_flat host beyond s frame).frame.kind = .Close))
        ∨ ((websocket_recv_frame_flat host beyond s frame).ret = -1
          ∧ (websocket_recv_frame_flat host beyond s frame).frame = frame))
      ∧ (∀ r, websocket_recv_frame host s frame = .returns r →
          websocket_recv_frame_flat host beyond s frame = r
            ∧ ((r.ret = 0 ∧ (r.frame.kind = .Text ∨ r.frame.kind = .Binary ∨ r.frame.kind = .Ping
                  ∨ r.frame.kind = .Pong ∨ r.frame.kind = .Close))
              ∨ (r.ret = -1 ∧ r.frame = frame)))
      ∧ (websocket_recv_frame host s frame = .outOfBounds →
          (websocket_recv_frame_flat host beyond s frame).ret = 0
            ∧ (websocket_recv_frame_flat host beyond s frame).frame.kind = .Close) := by
  have inside : ∀ r, websocket_recv_frame host s frame = .returns r →
      (r.ret = 0 ∧ (r.frame.kind = .Text ∨ r.frame.kind = .Binary ∨ r.frame.kind = .Ping
          ∨ r.frame.kind = .Pong ∨ r.frame.kind = .Close))
        ∨ (r.ret = -1 ∧ r.frame = frame) := by
    intro r hr
    rcases recv_frame_three_ways host s frame with ⟨r1, h1, a, b⟩ | ⟨r1, h1, a, b⟩ | ⟨h1, -⟩
    · rw [hr] at h1
      obtain rfl := Outcome.returns.inj h1
      exact Or.inl ⟨a, b⟩
    · rw [hr] at h1
      obtain rfl := Outcome.returns.inj h1
      exact Or.inr ⟨a, b⟩
    · rw [hr] at h1
      exact Outcome.noConfusion h1
  rcases recv_frame_flat_agrees host beyond s frame with h | ⟨h, h0, hk⟩
  · refine ⟨inside _ h, ?_, ?_⟩
    · intro r hr
      rw [h] at hr
      obtain rfl := Outcome.returns.inj hr
      exact ⟨rfl, inside _ h⟩
    · intro ho
      rw [h] at ho
      exact Outcome.noConfusion ho
  · refine ⟨Or.inl ⟨h0, Or.inr (Or.inr (Or.inr (Or.inr hk)))⟩, ?_, fun _ => ⟨h0, hk⟩⟩
    intro r hr
    rw [h] at hr
    exact Outcome.noConfusion hr

/-- Instances of C17: the Close frame with an empty payload, 0x88 0x80 and a key, returns
0 with kind Close; the masked Text frame "Hello" returns 0 with kind Text; and a
frame cut inside the key returns -1 and leaves the caller's Close frame in place. -/
theorem no_partial_frame_witness :
    websocket_recv_frame littleEndianHost [0x88, 0x80, 1, 2, 3, 4] (.text none 0) = .outOfBounds
      ∧ ((websocket_recv_frame_flat littleEndianHost (fun _ => 0x5A) [0x88, 0x80, 1, 2, 3, 4]
            (.text none 0)).ret = 0
        ∧ (websocket_recv_frame_flat littleEndianHost (fun _ => 0x5A) [0x88, 0x80, 1, 2, 3, 4]
            (.text none 0)).frame.kind = .Close)
      ∧ websocket_recv_frame_flat littleEndianHost (fun _ => 0x5A)
          [0x81, 0x85, 1, 2, 3, 4, 0x49, 0x67, 0x6f, 0x68, 0x6e, 9] .invalid
          = ⟨0, .text (some [0x48, 0x65, 0x6c, 0x6c, 0x6f]) 5, [9], none, some 5, false⟩
      ∧ websocket_recv_frame_flat littleEndianHost (fun _ => 0x5A) [0x81, 0x85, 1, 2] (.close 7)
          = ⟨-1, .close 7, [], none, none, false⟩ :=
  ⟨by decide,
    (no_partial_frame littleEndianHost (fun _ => 0x5A) [0x88, 0x80, 1, 2, 3, 4] (.text none 0)).2.2
      (by decide),
    ((no_partial_frame littleEndianHost (fun _ => 0x5A)
      [0x81, 0x85, 1, 2, 3, 4, 0x49, 0x67, 0x6f, 0x68, 0x6e, 9] .invalid).2.1 _ (by decide)).1,
    ((no_partial_frame littleEndianHost (fun _ => 0x5A) [0x81, 0x85, 1, 2] (.close 7)).2.1 _
      (by decide)).1⟩

end WebSocket
